import Mathlib

/-!
Verification development for the NestJS/Angular documentation MCP service.

The development shallowly embeds the two core subsystems of the repository:
the documentation indexer (`WebDocumentationRepository`) and the framework
aware code analyzer (`TsMorphCodeAnalysisRepository`), together with the
tool handlers that wire them up.  External collaborators (the HTTP content
fetcher and the ts-morph syntax-tree construction primitive) are modelled
as explicit oracles passed to the embedded operations, exactly at the
boundary the source uses them.  JavaScript string primitives
(`includes`, `endsWith`, `toLowerCase`, `substring`, `trim`, `split`,
`replace`) are embedded as executable functions over `List Char`.
-/

/-! ## JavaScript string primitives -/

/-- JavaScript whitespace class used by `\s`, `trim` and friends
(restricted to the ASCII whitespace characters that occur in practice). -/
def isJsWs (c : Char) : Bool :=
  c = ' ' || c = '\t' || c = '\n' || c = '\r' || c = '\x0b' || c = '\x0c'

/-- ASCII lower-casing of one character (JS `toLowerCase` on ASCII input). -/
def jsToLowerChar (c : Char) : Char :=
  if 'A' ≤ c ∧ c ≤ 'Z' then Char.ofNat (c.toNat + 32) else c

/-- ASCII upper-casing of one character (JS `toUpperCase` on ASCII input). -/
def jsToUpperChar (c : Char) : Char :=
  if 'a' ≤ c ∧ c ≤ 'z' then Char.ofNat (c.toNat - 32) else c

/-- JS `toLowerCase`. -/
def jsToLower (s : String) : String := ⟨s.data.map jsToLowerChar⟩

/-- Regex word-character class `\w`. -/
def isWordChar (c : Char) : Bool :=
  ('a' ≤ c && c ≤ 'z') || ('A' ≤ c && c ≤ 'Z') || ('0' ≤ c && c ≤ '9') || c = '_'

/-- Does the list start with the given list? -/
def listStartsWith : List Char → List Char → Bool
  | _, [] => true
  | [], _ :: _ => false
  | c :: cs, d :: ds => c = d && listStartsWith cs ds

/-- Does the list contain the given list as a contiguous sublist? -/
def listContainsSub (hay needle : List Char) : Bool :=
  listStartsWith hay needle ||
    match hay with
    | [] => false
    | _ :: cs => listContainsSub cs needle

/-- JS `String.prototype.includes`. -/
def jsIncludes (s sub : String) : Bool := listContainsSub s.data sub.data

/-- JS `String.prototype.startsWith`. -/
def jsStartsWith (s pre : String) : Bool := listStartsWith s.data pre.data

/-- JS `String.prototype.endsWith`. -/
def jsEndsWith (s suf : String) : Bool := listStartsWith s.data.reverse suf.data.reverse

/-- Index of the first occurrence of `needle` in `hay` (JS `indexOf`),
`none` when absent. -/
def listIndexOfSub (hay needle : List Char) : Option Nat :=
  if listStartsWith hay needle then some 0
  else
    match hay with
    | [] => none
    | _ :: cs => (listIndexOfSub cs needle).map (· + 1)

/-- JS `trim`: strip JS whitespace from both ends. -/
def jsTrim (s : String) : String :=
  ⟨((s.data.dropWhile isJsWs).reverse.dropWhile isJsWs).reverse⟩

/-- JS `substring(a, b)`: clamps both indices to the string and swaps them
when `a > b`. -/
def jsSubstring (s : String) (a b : Nat) : String :=
  let n := s.data.length
  let a' := min a n
  let b' := min b n
  let lo := min a' b'
  let hi := max a' b'
  ⟨(s.data.drop lo).take (hi - lo)⟩

/-- JS `substring(a)`: from index `a` (clamped) to the end. -/
def jsSubstringFrom (s : String) (a : Nat) : String := ⟨s.data.drop a⟩

/-- JS `split(sep)` for a one-character separator. -/
def splitOnCharAux (sep : Char) : List Char → List Char → List (List Char)
  | [], cur => [cur.reverse]
  | c :: cs, cur =>
    if c = sep then cur.reverse :: splitOnCharAux sep cs []
    else splitOnCharAux sep cs (c :: cur)

/-- JS `String.prototype.split` with a one-character separator. -/
def jsSplit (s : String) (sep : Char) : List String :=
  (splitOnCharAux sep s.data []).map (⟨·⟩)

/-- JS `Array.prototype.join` with a one-character separator. -/
def jsJoin (xs : List String) (sep : Char) : String :=
  match xs with
  | [] => ""
  | x :: rest => rest.foldl (fun acc y => acc ++ ⟨[sep]⟩ ++ y) x

/-- JS non-global `replace(needle, repl)` with a plain-string needle:
replaces the first occurrence only. -/
def jsReplaceFirst (s needle repl : String) : String :=
  match listIndexOfSub s.data needle.data with
  | none => s
  | some i => ⟨s.data.take i ++ repl.data ++ s.data.drop (i + needle.data.length)⟩

/-- JS global single-character replacement, e.g. every dash becomes a space. -/
def jsReplaceAllChar (s : String) (from_ to_ : Char) : String :=
  ⟨s.data.map (fun c => if c = from_ then to_ else c)⟩

/-- Helper for whitespace-run replacement; the flag records whether the
previous character was inside a whitespace run already replaced. -/
def wsRunsToDashAux : Bool → List Char → List Char
  | _, [] => []
  | inRun, c :: cs =>
    if isJsWs c then
      if inRun then wsRunsToDashAux true cs else '-' :: wsRunsToDashAux true cs
    else c :: wsRunsToDashAux false cs

/-- JS whitespace-run global replacement: each maximal whitespace run
becomes one dash. -/
def jsWsRunsToDash (s : String) : String := ⟨wsRunsToDashAux false s.data⟩

/-- JS falsy-default idiom `s || d` for strings (empty string is falsy),
with an optional string on the left (`undefined` is falsy too). -/
def jsOrElse (s : Option String) (d : String) : String :=
  match s with
  | none => d
  | some v => if v = "" then d else v

/-! ## Code-analysis data model
(from `src/core/domain/entities/code-analysis.ts`) -/

/-- `CodeLanguage` enum. -/
inductive CodeLanguage where
  | typescript | javascript | html | css | scss | json | yaml | unknown
deriving DecidableEq, Repr

/-- `CodeFileType` enum. -/
inductive CodeFileType where
  | angularComponent | angularService | angularModule | angularDirective | angularPipe
  | nestjsController | nestjsService | nestjsModule | nestjsMiddleware
  | nestjsPipe | nestjsGuard | nestjsInterceptor
  | configuration | test | unknown
deriving DecidableEq, Repr

/-- `IssueSeverity` enum. -/
inductive IssueSeverity where
  | error | warning | info
deriving DecidableEq, Repr

/-- The string value of each `CodeFileType` enum member (the TS enum values
are lower-case strings, which is what `fileType.toString()` yields). -/
def fileTypeToString : CodeFileType → String
  | .angularComponent => "angular_component"
  | .angularService => "angular_service"
  | .angularModule => "angular_module"
  | .angularDirective => "angular_directive"
  | .angularPipe => "angular_pipe"
  | .nestjsController => "nestjs_controller"
  | .nestjsService => "nestjs_service"
  | .nestjsModule => "nestjs_module"
  | .nestjsMiddleware => "nestjs_middleware"
  | .nestjsPipe => "nestjs_pipe"
  | .nestjsGuard => "nestjs_guard"
  | .nestjsInterceptor => "nestjs_interceptor"
  | .configuration => "configuration"
  | .test => "test"
  | .unknown => "unknown"

/-- The string value of each `IssueSeverity` enum member. -/
def severityToString : IssueSeverity → String
  | .error => "error"
  | .warning => "warning"
  | .info => "info"

/-- `CodeFile` entity. -/
structure CodeFile where
  path : String
  content : String
  language : CodeLanguage
  fileType : CodeFileType
deriving DecidableEq, Repr

/-- `CodeIssue` entity. -/
structure CodeIssue where
  id : String
  description : String
  severity : IssueSeverity
  lineStart : Nat
  lineEnd : Nat
  suggestedFix : String
  relatedDocumentation : String
deriving DecidableEq, Repr

/-- `BestPractice` entity. -/
structure BestPractice where
  id : String
  title : String
  description : String
  documentationUrl : String
  codeExample : String
deriving DecidableEq, Repr

/-- `CodeAnalysisResult` entity. -/
structure CodeAnalysisResult where
  file : CodeFile
  issues : List CodeIssue
  bestPractices : List BestPractice
deriving DecidableEq, Repr

/-! ## File classifier
(`TsMorphCodeAnalysisRepository.detectFileType`,
`ts-morph-code-analysis-repository.ts` lines 91-203) -/

/-- Extension-to-language table (`detectFileType` lines 103-119); returns
`unknown` when no extension matches, which leaves the language unchanged
because this is only consulted when the language is already `unknown`. -/
def detectLanguageFromPath (path : String) : CodeLanguage :=
  if jsEndsWith path ".ts" then .typescript
  else if jsEndsWith path ".js" then .javascript
  else if jsEndsWith path ".html" then .html
  else if jsEndsWith path ".css" then .css
  else if jsEndsWith path ".scss" then .scss
  else if jsEndsWith path ".json" then .json
  else if jsEndsWith path ".yml" || jsEndsWith path ".yaml" then .yaml
  else .unknown

/-- Language detection step: derive the language from the extension only
when it is not already set. -/
def detectLanguage (path : String) (language : CodeLanguage) : CodeLanguage :=
  if language = .unknown then detectLanguageFromPath path else language

/-- Path-fragment classification rules (`detectFileType` lines 122-162);
first match wins.  `path.match(/.*\.component$/)` is equivalent to an
`endsWith ".component"` test because `$` is the end of the input and `.`
cannot cross a newline backwards past the suffix occurrence. -/
def detectPathFileType (path : String) : CodeFileType :=
  if jsIncludes path ".controller." then .nestjsController
  else if jsIncludes path ".service." || jsIncludes path ".provider." then .nestjsService
  else if jsIncludes path ".module." then .nestjsModule
  else if jsIncludes path ".middleware." then .nestjsMiddleware
  else if jsIncludes path ".pipe." then .nestjsPipe
  else if jsIncludes path ".guard." then .nestjsGuard
  else if jsIncludes path ".interceptor." || jsIncludes path ".filter." then .nestjsInterceptor
  else if jsIncludes path ".component." || jsEndsWith path ".component" then .angularComponent
  else if jsIncludes path ".service." || jsEndsWith path ".service" then .angularService
  else if jsIncludes path ".module." || jsEndsWith path ".module" then .angularModule
  else if jsIncludes path ".directive." || jsEndsWith path ".directive" then .angularDirective
  else if jsIncludes path ".pipe." || jsEndsWith path ".pipe" then .angularPipe
  else if jsIncludes path ".spec." || jsIncludes path ".test." then .test
  else if jsIncludes path "package.json" || jsIncludes path "tsconfig.json" ||
          jsIncludes path "angular.json" || jsIncludes path "nest-cli.json" then .configuration
  else .unknown

/-- Content-based fallback classification (`detectFileType` lines 165-200). -/
def detectContentFileType (content : String) : CodeFileType :=
  if jsIncludes content "@Controller" || jsIncludes content "Controller" then .nestjsController
  else if jsIncludes content "@Injectable" &&
          (jsIncludes content "Service" || jsIncludes content "Provider" ||
           jsIncludes content "Repository") then .nestjsService
  else if jsIncludes content "@Module" then .nestjsModule
  else if jsIncludes content "@Injectable" && jsIncludes content "Pipe" then .nestjsPipe
  else if jsIncludes content "@Injectable" && jsIncludes content "Guard" then .nestjsGuard
  else if jsIncludes content "@Injectable" &&
          (jsIncludes content "Interceptor" || jsIncludes content "Filter" ||
           jsIncludes content "ExceptionFilter") then .nestjsInterceptor
  else if jsIncludes content "@Component" then .angularComponent
  else if jsIncludes content "@Injectable" && !jsIncludes content "@nestjs/" then .angularService
  else if jsIncludes content "@NgModule" then .angularModule
  else if jsIncludes content "@Directive" then .angularDirective
  else if jsIncludes content "@Pipe" then .angularPipe
  else .unknown

/-- Core of `detectFileType` for a file whose type is still unknown: derive
the language, try the path rules (for the two code languages), then fall
back to the content rules. -/
def detectFileTypeCore (path content : String) (language0 : CodeLanguage) : CodeFile :=
  let language := detectLanguage path language0
  let isCodeLang := language = .typescript || language = .javascript
  let fileType0 := if isCodeLang then detectPathFileType path else .unknown
  let fileType :=
    if fileType0 = .unknown && isCodeLang then detectContentFileType content else fileType0
  ⟨path, content, language, fileType⟩

/-- `detectFileType`: returns the file unchanged when it already has a
known type, otherwise classifies it. -/
def detectFileType (file : CodeFile) : CodeFile :=
  if file.fileType = .unknown then
    detectFileTypeCore file.path file.content file.language
  else file

/-! ### Classifier lemmas -/

/-- Deriving the language is idempotent. -/
theorem detectLanguage_idem (path : String) (l : CodeLanguage) :
    detectLanguage path (detectLanguage path l) = detectLanguage path l := by
  unfold detectLanguage
  by_cases h : l = CodeLanguage.unknown
  · by_cases h2 : detectLanguageFromPath path = CodeLanguage.unknown <;> simp [h, h2]
  · simp [h]

/-- The core classifier is stable: re-running it on its own output (which
still carries an unknown file type) reproduces the same file. -/
theorem detectFileTypeCore_stable (path content : String) (l : CodeLanguage) :
    detectFileTypeCore path content (detectFileTypeCore path content l).language
      = detectFileTypeCore path content l := by
  unfold detectFileTypeCore
  simp only [detectLanguage_idem]

/-- The classifier fixes every output of its own core. -/
theorem detectFileType_core_fixed (p c : String) (l : CodeLanguage) :
    detectFileType (detectFileTypeCore p c l) = detectFileTypeCore p c l := by
  by_cases h2 : (detectFileTypeCore p c l).fileType = CodeFileType.unknown
  · rw [detectFileType, if_pos h2]
    exact detectFileTypeCore_stable p c l
  · rw [detectFileType, if_neg h2]

/-- Claim C4: the classifier `detectFileType` is idempotent — applying it
to its own result changes nothing — and a file that already carries a known
(non-unknown) entity kind is returned unchanged. -/
theorem claim_C4 (f : CodeFile) :
    detectFileType (detectFileType f) = detectFileType f ∧
    (f.fileType ≠ CodeFileType.unknown → detectFileType f = f) := by
  constructor
  · by_cases h : f.fileType = CodeFileType.unknown
    · have hdf : detectFileType f = detectFileTypeCore f.path f.content f.language := by
        rw [detectFileType, if_pos h]
      rw [hdf]
      exact detectFileType_core_fixed f.path f.content f.language
    · have hdf : detectFileType f = f := by rw [detectFileType, if_neg h]
      rw [hdf, hdf]
  · intro h
    rw [detectFileType, if_neg h]

/-- Witness for C4 at a concrete file with a known type. -/
theorem claim_C4_witness :
    detectFileType (CodeFile.mk "app.controller.ts" "class A" .typescript .nestjsController)
      = CodeFile.mk "app.controller.ts" "class A" .typescript .nestjsController :=
  (claim_C4 _).2 (by decide)

/-- Counterexample input for claim C2: a TypeScript file whose path matches
no path rule and whose content contains no annotation token at all (not
even an `@` character), but does contain the bare substring `Controller`. -/
def c2File : CodeFile :=
  CodeFile.mk "foo.ts" "export class FooController extends Base" .unknown .unknown

/-- Claim C2 is false on the code: the content fallback's first branch is
`content.includes('@Controller') || content.includes('Controller')`, so a
file containing the bare substring `Controller` — with no annotation token
anywhere in it — is classified as a NestJS controller rather than staying
unknown. -/
theorem claim_C2_counterexample :
    (detectFileType c2File).fileType = CodeFileType.nestjsController ∧
    detectPathFileType c2File.path = CodeFileType.unknown ∧
    c2File.content.data.all (· ≠ '@') = true := by
  refine ⟨by decide, by decide, by decide⟩

/-- Claim C2 (amended): when path-based classification fails for a file
whose type is still unknown, `detectFileType` assigns a non-unknown kind
only if the content contains a framework annotation token or the bare
substring `Controller`; if the content contains neither, the detected kind
remains unknown. -/
theorem claim_C2 (path content : String) (language : CodeLanguage)
    (hpath : detectPathFileType path = CodeFileType.unknown)
    (h1 : jsIncludes content "Controller" = false)
    (h2 : jsIncludes content "@Injectable" = false)
    (h3 : jsIncludes content "@Module" = false)
    (h4 : jsIncludes content "@Component" = false)
    (h5 : jsIncludes content "@NgModule" = false)
    (h6 : jsIncludes content "@Directive" = false)
    (h7 : jsIncludes content "@Pipe" = false)
    (h8 : jsIncludes content "@Controller" = false) :
    (detectFileType (CodeFile.mk path content language .unknown)).fileType
      = CodeFileType.unknown := by
  rw [detectFileType]
  simp only [if_pos rfl]
  unfold detectFileTypeCore detectContentFileType
  simp only [hpath, h1, h2, h3, h4, h5, h6, h7, h8]
  by_cases hc : detectLanguage path language = CodeLanguage.typescript ||
                detectLanguage path language = CodeLanguage.javascript <;>
    simp [hc]

/-- Witness for the amended C2 at a concrete unclassifiable file. -/
theorem claim_C2_witness :
    (detectFileType (CodeFile.mk "foo.ts" "export class Foo" .unknown .unknown)).fileType
      = CodeFileType.unknown :=
  claim_C2 "foo.ts" "export class Foo" .unknown (by decide) (by decide) (by decide)
    (by decide) (by decide) (by decide) (by decide) (by decide) (by decide)

/-! ## Region extractor
(`WebDocumentationRepository.extractVisibleRegion`, lines 209-268) -/

/-- Consume a literal token at the head of the list. -/
def dropLit (lit cs : List Char) : Option (List Char) :=
  if listStartsWith cs lit then some (cs.drop lit.length) else none

/-- Match one region-marker pattern at the head of `cs` and return the
match length.  The pattern is: `opener`, optional whitespace, the keyword
(`#docregion` or `#enddocregion`), mandatory whitespace, the region name,
then (for the markup and block comment variants) optional whitespace and
the `closer`, and finally one carriage-return or newline character, which
is part of the match (the `[\r\n]` class in the source regexes).
Whitespace is consumed maximal-munch, which agrees with the JS regexes
whenever the region name does not start with a whitespace character. -/
def matchMarkerAt (opener : List Char) (closer : Option (List Char))
    (kw name cs : List Char) : Option Nat :=
  match dropLit opener cs with
  | none => none
  | some r1 =>
    match dropLit kw (r1.dropWhile isJsWs) with
    | none => none
    | some r3 =>
      if (r3.takeWhile isJsWs).length = 0 then none
      else
        match dropLit name (r3.dropWhile isJsWs) with
        | none => none
        | some r5 =>
          let after :=
            match closer with
            | none => some r5
            | some cl => dropLit cl (r5.dropWhile isJsWs)
          match after with
          | none => none
          | some r7 =>
            match r7 with
            | c :: r8 => if c = '\r' || c = '\n' then some (cs.length - r8.length) else none
            | [] => none

/-- The three comment-syntax variants of a region marker, in the order the
source lists them (line comment, markup comment, block comment). -/
def markerMatcherOfVariant (v : Nat) (kw name : String) : List Char → Option Nat :=
  match v with
  | 0 => matchMarkerAt "//".data none kw.data name.data
  | 1 => matchMarkerAt "<!--".data (some "-->".data) kw.data name.data
  | _ => matchMarkerAt "/*".data (some "*/".data) kw.data name.data

/-- Leftmost match of a head-matcher over a list: returns the match index
and length (JS `RegExp.prototype.exec` semantics for these patterns). -/
def scanFirst (m : List Char → Option Nat) : List Char → Option (Nat × Nat)
  | [] => (m []).map (fun l => (0, l))
  | c :: cs =>
    match m (c :: cs) with
    | some l => some (0, l)
    | none => (scanFirst m cs).map (fun p => (p.1 + 1, p.2))

/-- Earliest match across the three marker variants; a strictly smaller
index wins, ties keep the earlier-listed variant (source lines 231-237 and
248-253 use a strict `<` comparison). -/
def findMarker (kw name : String) (cs : List Char) : Option (Nat × Nat × Nat) :=
  let cands := [(scanFirst (markerMatcherOfVariant 0 kw name) cs, 0),
                (scanFirst (markerMatcherOfVariant 1 kw name) cs, 1),
                (scanFirst (markerMatcherOfVariant 2 kw name) cs, 2)]
  cands.foldl
    (fun best c =>
      match c.1 with
      | none => best
      | some (i, l) =>
        match best with
        | none => some (i, l, c.2)
        | some (bi, _, _) => if i < bi then some (i, l, c.2) else best)
    none

/-- `extractVisibleRegion(fileContent, regionName)`: slice the text
strictly between the region's start and end markers.  Empty content or an
empty region name is returned unchanged (the falsy guard), as is content
with no start marker; a start marker without an end marker yields the rest
of the file after the start marker (untrimmed); a complete pair yields the
span between the markers, trimmed. -/
def extractVisibleRegion (fileContent regionName : String) : String :=
  if fileContent = "" || regionName = "" then fileContent
  else
    match findMarker "#docregion" regionName fileContent.data with
    | none => fileContent
    | some (startIndex, _, v) =>
      let contentAfterStart := jsSubstringFrom fileContent startIndex
      let startMarkerLen :=
        ((scanFirst (markerMatcherOfVariant v "#docregion" regionName)
            contentAfterStart.data).map (·.2)).getD 0
      match findMarker "#enddocregion" regionName contentAfterStart.data with
      | none => jsSubstringFrom contentAfterStart startMarkerLen
      | some (endRel, _, _) => jsTrim (jsSubstring contentAfterStart startMarkerLen endRel)

/-- Content with no start marker (or empty content / an empty region name)
is returned unchanged by the extractor. -/
theorem extractVisibleRegion_no_marker (y name : String)
    (h : findMarker "#docregion" name y.data = none) :
    extractVisibleRegion y name = y := by
  unfold extractVisibleRegion
  by_cases hy : y = "" <;> by_cases hn : name = "" <;> simp [hy, hn, h]

/-- Counterexample input for claim C3: a file whose region `r` is opened
twice before being closed.  The first extraction keeps the inner start
marker in its output, so a second extraction shrinks the text further. -/
def c3Content : String :=
  "// #docregion r\n// #docregion r\nx\n// #enddocregion r\n// #enddocregion r\n"

/-- Claim C3 is false on the code: region extraction is not a fixed point
under re-extraction in general, because a first extraction can leave a
start marker for the same region in its output (duplicated or nested
markers), and the second extraction then strips it. -/
theorem claim_C3_counterexample :
    extractVisibleRegion (extractVisibleRegion c3Content "r") "r"
      ≠ extractVisibleRegion c3Content "r" := by
  decide

/-- Claim C3 (amended): re-extraction of a region is the identity on every
first-extraction output in which no start marker for that region remains
(in particular whenever the first extraction consumed all markers); the
unrestricted fixed-point property fails when markers for the region are
duplicated or nested. -/
theorem claim_C3 (content name : String)
    (h : findMarker "#docregion" name (extractVisibleRegion content name).data = none) :
    extractVisibleRegion (extractVisibleRegion content name) name
      = extractVisibleRegion content name :=
  extractVisibleRegion_no_marker _ name h

/-- Witness for the amended C3: a well-formed single region; the first
extraction returns the region body and the second pass leaves it alone. -/
theorem claim_C3_witness :
    extractVisibleRegion
        (extractVisibleRegion "// #docregion r\nx\n// #enddocregion r\n" "r") "r"
      = extractVisibleRegion "// #docregion r\nx\n// #enddocregion r\n" "r" :=
  claim_C3 "// #docregion r\nx\n// #enddocregion r\n" "r" (by decide)

/-! ## Syntax-tree model

The source builds the tree with ts-morph (`project.createSourceFile`), an
external primitive (spec section 6).  The analyzer only queries the tree
shapes below, so a source file is embedded as the record of those query
results; the construction primitive itself is an oracle
`String → String → Option SourceFileAst` (`none` models a construction
failure, which the source catches). -/

/-- A decorator as queried by the analyzer: its name, the texts of its
arguments, and its line span. -/
structure TsDecorator where
  name : String
  args : List String
  lineStart : Nat
  lineEnd : Nat
deriving DecidableEq, Repr

/-- A constructor parameter: name, access-modifier flags, line span, text. -/
structure TsParam where
  name : String
  isPrivate : Bool
  isProtected : Bool
  isPublic : Bool
  lineStart : Nat
  lineEnd : Nat
  text : String
deriving DecidableEq, Repr

/-- A class constructor (only its parameters are queried). -/
structure TsCtor where
  params : List TsParam
deriving DecidableEq, Repr

/-- A class method: name, decorators, modifier flags, line span, text. -/
structure TsMethod where
  name : String
  decorators : List TsDecorator
  isPrivate : Bool
  isProtected : Bool
  lineStart : Nat
  lineEnd : Nat
  text : String
deriving DecidableEq, Repr

/-- A class declaration: optional name, decorators, the texts of its
`implements` clauses, methods, constructors, line span, full text. -/
structure TsClass where
  name : Option String
  decorators : List TsDecorator
  implementsTexts : List String
  methods : List TsMethod
  ctors : List TsCtor
  lineStart : Nat
  lineEnd : Nat
  text : String
deriving DecidableEq, Repr

/-- An import declaration: its named imports and line span. -/
structure TsImport where
  namedImports : List String
  lineStart : Nat
  lineEnd : Nat
deriving DecidableEq, Repr

/-- A single-line comment trivia node: text and line span. -/
structure TsComment where
  text : String
  lineStart : Nat
  lineEnd : Nat
deriving DecidableEq, Repr

/-- The queried shape of a parsed source file.  `identifiers` lists the
texts of all identifier nodes in the file (used by the unused-import
check); `comments` lists the single-line comment trivia. -/
structure SourceFileAst where
  imports : List TsImport
  identifiers : List String
  comments : List TsComment
  classes : List TsClass
deriving DecidableEq, Repr

/-- JS template-literal interpolation of a possibly-undefined name
(an undefined value prints as the string `undefined`). -/
def jsTemplate (o : Option String) : String := o.getD "undefined"

/-! ## Framework-agnostic pass
(`analyzeCommonTypeScriptPatterns`, lines 386-436) -/

/-- The commented-out-code test: the comment text, after optional leading
whitespace, starts with two slashes and later contains a semicolon or a
brace (the source regex anchored at the start of the single-line text). -/
def looksLikeCommentedCode (t : String) : Bool :=
  let r := t.data.dropWhile isJsWs
  listStartsWith r "//".data && (r.drop 2).any (fun c => c = ';' || c = '\x7b' || c = '\x7d')

/-- Unused-import and commented-out-code issues common to all file kinds. -/
def analyzeCommonTypeScriptPatterns (sf : SourceFileAst) (framework : String) : List CodeIssue :=
  let styleUrl :=
    if framework = "angular" then "https://angular.io/guide/styleguide#style-04-13"
    else "https://docs.nestjs.com/styleguide"
  let commentStyleUrl :=
    if framework = "angular" then "https://angular.io/guide/styleguide#style-02-03"
    else "https://docs.nestjs.com/styleguide"
  let unusedIssues := sf.imports.flatMap (fun imp =>
    imp.namedImports.filterMap (fun ident =>
      let references := sf.identifiers.filter (· = ident)
      if references.length ≤ 1 then
        some ⟨"unused-import-" ++ ident, "Unused import: " ++ ident, .warning,
              imp.lineStart, imp.lineEnd, "Remove the unused import: " ++ ident, styleUrl⟩
      else none))
  let commentIssues := (sf.comments.filter (fun c => looksLikeCommentedCode c.text)).map
    (fun c => ⟨"commented-code-" ++ toString c.lineStart, "Commented out code should be removed",
               .info, c.lineStart, c.lineEnd, "Remove commented out code", commentStyleUrl⟩)
  unusedIssues ++ commentIssues

/-! ## Kind-specific passes (lines 441-1000) -/

/-- `analyzeNestJSController` (lines 441-506). -/
def analyzeNestJSController (sf : SourceFileAst) : List CodeIssue :=
  sf.classes.flatMap (fun cls =>
    let nm := jsOrElse cls.name "unknown"
    let decoratorIssue :=
      if cls.decorators.any (·.name = "Controller") then []
      else [⟨"missing-controller-decorator-" ++ nm,
             "Missing @Controller decorator on controller class", .error,
             cls.lineStart, cls.lineEnd,
             "Add @Controller() decorator to the class:\n\n@Controller()\n" ++ cls.text,
             "https://docs.nestjs.com/controllers"⟩]
    let methodIssues := cls.methods.filterMap (fun m =>
      let hasHttp := m.decorators.any (fun d =>
        ["Get", "Post", "Put", "Delete", "Patch", "Options", "Head"].contains d.name)
      if !hasHttp && !m.isPrivate && !m.isProtected then
        some ⟨"missing-http-method-decorator-" ++ m.name,
              "Missing HTTP method decorator on controller method " ++ m.name, .warning,
              m.lineStart, m.lineEnd,
              "Add an appropriate HTTP method decorator to the method:\n\n@Get()\n" ++ m.text,
              "https://docs.nestjs.com/controllers#request-object"⟩
      else none)
    let ctorIssues :=
      match cls.ctors.head? with
      | none => []
      | some ctor => ctor.params.filterMap (fun p =>
          if !p.isPrivate && !p.isProtected && !p.isPublic then
            some ⟨"missing-access-modifier-" ++ jsOrElse (some p.name) "unknown",
                  "Missing access modifier in constructor parameter for dependency injection: " ++
                    jsOrElse (some p.name) "unknown", .warning,
                  p.lineStart, p.lineEnd,
                  "Add an access modifier (private, protected, or public) to the parameter:\n\nconstructor(private " ++
                    p.text ++ ") \x7b\x7d",
                  "https://docs.nestjs.com/providers#dependency-injection"⟩
          else none)
    decoratorIssue ++ methodIssues ++ ctorIssues)

/-- `analyzeNestJSService` (lines 511-546). -/
def analyzeNestJSService (sf : SourceFileAst) : List CodeIssue :=
  sf.classes.flatMap (fun cls =>
    let nm := jsOrElse cls.name "unknown"
    let decoratorIssue :=
      if cls.decorators.any (·.name = "Injectable") then []
      else [⟨"missing-injectable-decorator-" ++ nm,
             "Missing @Injectable decorator on service class", .error,
             cls.lineStart, cls.lineEnd,
             "Add @Injectable() decorator to the class:\n\n@Injectable()\n" ++ cls.text,
             "https://docs.nestjs.com/providers"⟩]
    let namingIssue :=
      match cls.name with
      | none => []
      | some className =>
        if !jsEndsWith className "Service" && !jsEndsWith className "Provider" &&
           !jsEndsWith className "Repository" then
          [⟨"service-naming-convention-" ++ className,
            "Service class name should end with \x27Service\x27: " ++ className, .info,
            cls.lineStart, cls.lineEnd,
            "Rename the class to follow the naming convention:\n\nexport class " ++ className ++
              "Service \x7b...\x7d",
            "https://docs.nestjs.com/styleguide#naming"⟩]
        else []
    decoratorIssue ++ namingIssue)

/-- `analyzeNestJSModule` (lines 551-587); a missing decorator skips the
naming check (`continue`). -/
def analyzeNestJSModule (sf : SourceFileAst) : List CodeIssue :=
  sf.classes.flatMap (fun cls =>
    let nm := jsOrElse cls.name "unknown"
    if !cls.decorators.any (·.name = "Module") then
      [⟨"missing-module-decorator-" ++ nm,
        "Missing @Module decorator on module class", .error,
        cls.lineStart, cls.lineEnd,
        "Add @Module decorator with required metadata to the class:\n\n@Module(\x7b\n  imports: [],\n  controllers: [],\n  providers: [],\n  exports: []\n\x7d)\n" ++
          cls.text,
        "https://docs.nestjs.com/modules"⟩]
    else
      match cls.name with
      | none => []
      | some className =>
        if !jsEndsWith className "Module" then
          [⟨"module-naming-convention-" ++ className,
            "Module class name should end with \x27Module\x27: " ++ className, .info,
            cls.lineStart, cls.lineEnd,
            "Rename the class to follow the naming convention:\n\nexport class " ++ className ++
              "Module \x7b...\x7d",
            "https://docs.nestjs.com/styleguide#naming"⟩]
        else [])

/-- `analyzeNestJSPipe` (lines 592-648). -/
def analyzeNestJSPipe (sf : SourceFileAst) : List CodeIssue :=
  sf.classes.flatMap (fun cls =>
    let nm := jsOrElse cls.name "unknown"
    let decoratorIssue :=
      if cls.decorators.any (·.name = "Injectable") then []
      else [⟨"missing-injectable-decorator-" ++ nm,
             "Missing @Injectable decorator on pipe class", .error,
             cls.lineStart, cls.lineEnd,
             "Add @Injectable() decorator to the class:\n\n@Injectable()\n" ++ cls.text,
             "https://docs.nestjs.com/pipes"⟩]
    let interfaceIssue :=
      if cls.implementsTexts.any (fun t => jsIncludes t "PipeTransform") then []
      else [⟨"missing-pipetransform-interface-" ++ nm,
             "Pipe class should implement PipeTransform interface", .error,
             cls.lineStart, cls.lineEnd,
             "Update class to implement PipeTransform interface:\n\nexport class " ++
               jsTemplate cls.name ++ " implements PipeTransform \x7b...\x7d",
             "https://docs.nestjs.com/pipes"⟩]
    let methodIssue :=
      if cls.methods.any (·.name = "transform") then []
      else [⟨"missing-transform-method-" ++ nm,
             "Pipe class must implement a transform method", .error,
             cls.lineStart, cls.lineEnd,
             "Add transform method to pipe class:\n\ntransform(value: any, metadata: ArgumentMetadata) \x7b\n  // transformation logic\n  return value;\n\x7d",
             "https://docs.nestjs.com/pipes#building-a-simple-pipe"⟩]
    decoratorIssue ++ interfaceIssue ++ methodIssue)

/-- `analyzeNestJSGuard` (lines 653-709). -/
def analyzeNestJSGuard (sf : SourceFileAst) : List CodeIssue :=
  sf.classes.flatMap (fun cls =>
    let nm := jsOrElse cls.name "unknown"
    let decoratorIssue :=
      if cls.decorators.any (·.name = "Injectable") then []
      else [⟨"missing-injectable-decorator-" ++ nm,
             "Missing @Injectable decorator on guard class", .error,
             cls.lineStart, cls.lineEnd,
             "Add @Injectable() decorator to the class:\n\n@Injectable()\n" ++ cls.text,
             "https://docs.nestjs.com/guards"⟩]
    let interfaceIssue :=
      if cls.implementsTexts.any (fun t => jsIncludes t "CanActivate") then []
      else [⟨"missing-canactivate-interface-" ++ nm,
             "Guard class should implement CanActivate interface", .error,
             cls.lineStart, cls.lineEnd,
             "Update class to implement CanActivate interface:\n\nexport class " ++
               jsTemplate cls.name ++ " implements CanActivate \x7b...\x7d",
             "https://docs.nestjs.com/guards"⟩]
    let methodIssue :=
      if cls.methods.any (·.name = "canActivate") then []
      else [⟨"missing-canactivate-method-" ++ nm,
             "Guard class must implement a canActivate method", .error,
             cls.lineStart, cls.lineEnd,
             "Add canActivate method to guard class:\n\ncanActivate(context: ExecutionContext): boolean | Promise<boolean> | Observable<boolean> \x7b\n  // guard logic\n  return true;\n\x7d",
             "https://docs.nestjs.com/guards#basic-guard"⟩]
    decoratorIssue ++ interfaceIssue ++ methodIssue)

/-- `analyzeNestJSInterceptor` (lines 714-810): classes whose name contains
`Filter` or `Exception` are checked as exception filters, the rest as
interceptors. -/
def analyzeNestJSInterceptor (sf : SourceFileAst) : List CodeIssue :=
  sf.classes.flatMap (fun cls =>
    let nm := jsOrElse cls.name "unknown"
    let className := cls.name.getD ""
    let decoratorIssue :=
      if cls.decorators.any (·.name = "Injectable") then []
      else [⟨"missing-injectable-decorator-" ++ nm,
             "Missing @Injectable decorator on interceptor class", .error,
             cls.lineStart, cls.lineEnd,
             "Add @Injectable() decorator to the class:\n\n@Injectable()\n" ++ cls.text,
             "https://docs.nestjs.com/interceptors"⟩]
    let specificIssues :=
      if jsIncludes className "Filter" || jsIncludes className "Exception" then
        let interfaceIssue :=
          if cls.implementsTexts.any (fun t => jsIncludes t "ExceptionFilter") then []
          else [⟨"missing-exceptionfilter-interface-" ++ className,
                 "Exception filter class should implement ExceptionFilter interface", .error,
                 cls.lineStart, cls.lineEnd,
                 "Update class to implement ExceptionFilter interface:\n\nexport class " ++
                   className ++ " implements ExceptionFilter \x7b...\x7d",
                 "https://docs.nestjs.com/exception-filters"⟩]
        let methodIssue :=
          if cls.methods.any (·.name = "catch") then []
          else [⟨"missing-catch-method-" ++ className,
                 "Exception filter class must implement a catch method", .error,
                 cls.lineStart, cls.lineEnd,
                 "Add catch method to exception filter class:\n\ncatch(exception: Error, host: ArgumentsHost) \x7b\n  // filter logic\n\x7d",
                 "https://docs.nestjs.com/exception-filters#binding-filters"⟩]
        interfaceIssue ++ methodIssue
      else
        let interfaceIssue :=
          if cls.implementsTexts.any (fun t => jsIncludes t "NestInterceptor") then []
          else [⟨"missing-nestinterceptor-interface-" ++ className,
                 "Interceptor class should implement NestInterceptor interface", .error,
                 cls.lineStart, cls.lineEnd,
                 "Update class to implement NestInterceptor interface:\n\nexport class " ++
                   className ++ " implements NestInterceptor \x7b...\x7d",
                 "https://docs.nestjs.com/interceptors"⟩]
        let methodIssue :=
          if cls.methods.any (·.name = "intercept") then []
          else [⟨"missing-intercept-method-" ++ className,
                 "Interceptor class must implement an intercept method", .error,
                 cls.lineStart, cls.lineEnd,
                 "Add intercept method to interceptor class:\n\nintercept(context: ExecutionContext, next: CallHandler): Observable<any> \x7b\n  // interceptor logic\n  return next.handle();\n\x7d",
                 "https://docs.nestjs.com/interceptors#basics"⟩]
        interfaceIssue ++ methodIssue
    decoratorIssue ++ specificIssues)

/-- `analyzeAngularComponent` (lines 815-858); a missing decorator skips
the OnInit check (`continue`). -/
def analyzeAngularComponent (sf : SourceFileAst) : List CodeIssue :=
  sf.classes.flatMap (fun cls =>
    let nm := jsOrElse cls.name "unknown"
    let lowname := jsOrElse (cls.name.map jsToLower) "example"
    if !cls.decorators.any (·.name = "Component") then
      [⟨"missing-component-decorator-" ++ nm,
        "Missing @Component decorator on component class", .error,
        cls.lineStart, cls.lineEnd,
        "Add @Component() decorator with required metadata to the class:\n\n@Component(\x7b\n  selector: \x27app-" ++
          lowname ++ "\x27,\n  templateUrl: \x27./" ++ lowname ++ ".component.html\x27\n\x7d)\n" ++
          cls.text,
        "https://angular.io/api/core/Component"⟩]
    else
      let implementsOnInit := cls.implementsTexts.any (fun t => jsIncludes t "OnInit")
      let hasNgOnInitMethod := cls.methods.any (·.name = "ngOnInit")
      if hasNgOnInitMethod && !implementsOnInit then
        [⟨"missing-oninit-interface-" ++ nm,
          "Component has ngOnInit method but does not implement OnInit interface", .warning,
          cls.lineStart, cls.lineStart + 1,
          "Update class declaration to implement OnInit:\n\nexport class " ++ jsTemplate cls.name ++
            " implements OnInit \x7b\n\n  // Don\x27t forget to add the import:\n  // import \x7b OnInit \x7d from \x27@angular/core\x27;",
          "https://angular.io/api/core/OnInit"⟩]
      else [])

/-- `analyzeAngularService` (lines 863-904). -/
def analyzeAngularService (sf : SourceFileAst) : List CodeIssue :=
  sf.classes.flatMap (fun cls =>
    let nm := jsOrElse cls.name "unknown"
    if !cls.decorators.any (·.name = "Injectable") then
      [⟨"missing-injectable-decorator-" ++ nm,
        "Missing @Injectable decorator on service class", .error,
        cls.lineStart, cls.lineEnd,
        "Add @Injectable() decorator to the class:\n\n@Injectable(\x7b providedIn: \x27root\x27 \x7d)\n" ++
          cls.text ++
          "\n\n// Don\x27t forget to add the import:\n// import \x7b Injectable \x7d from \x27@angular/core\x27;",
        "https://angular.io/guide/dependency-injection"⟩]
    else
      match cls.decorators.find? (·.name = "Injectable") with
      | none => []
      | some injectableDecorator =>
        let firstArgHasProvidedIn :=
          match injectableDecorator.args.head? with
          | none => false
          | some arg => jsIncludes arg "providedIn"
        if !firstArgHasProvidedIn then
          [⟨"missing-providedin-" ++ nm,
            "Injectable decorator should use providedIn for tree-shakable services", .warning,
            injectableDecorator.lineStart, injectableDecorator.lineEnd,
            "Update Injectable decorator to use providedIn:\n\n@Injectable(\x7b providedIn: \x27root\x27 \x7d)",
            "https://angular.io/guide/dependency-injection-providers#tree-shakable-providers"⟩]
        else [])

/-- `analyzeAngularModule` (lines 909-930). -/
def analyzeAngularModule (sf : SourceFileAst) : List CodeIssue :=
  sf.classes.flatMap (fun cls =>
    let nm := jsOrElse cls.name "unknown"
    if !cls.decorators.any (·.name = "NgModule") then
      [⟨"missing-ngmodule-decorator-" ++ nm,
        "Missing @NgModule decorator on module class", .error,
        cls.lineStart, cls.lineEnd,
        "Add @NgModule decorator with required metadata to the class:\n\n@NgModule(\x7b\n  declarations: [],\n  imports: [],\n  exports: [],\n  providers: []\n\x7d)\n" ++
          cls.text ++
          "\n\n// Don\x27t forget to add the import:\n// import \x7b NgModule \x7d from \x27@angular/core\x27;",
        "https://angular.io/guide/ngmodules"⟩]
    else [])

/-- `analyzeAngularDirective` (lines 935-956). -/
def analyzeAngularDirective (sf : SourceFileAst) : List CodeIssue :=
  sf.classes.flatMap (fun cls =>
    let nm := jsOrElse cls.name "unknown"
    if !cls.decorators.any (·.name = "Directive") then
      [⟨"missing-directive-decorator-" ++ nm,
        "Missing @Directive decorator on directive class", .error,
        cls.lineStart, cls.lineEnd,
        "Add @Directive decorator with required metadata to the class:\n\n@Directive(\x7b\n  selector: \x27[app" ++
          jsOrElse cls.name "Example" ++ "]\x27\n\x7d)\n" ++ cls.text ++
          "\n\n// Don\x27t forget to add the import:\n// import \x7b Directive \x7d from \x27@angular/core\x27;",
        "https://angular.io/guide/attribute-directives"⟩]
    else [])

/-- `analyzeAngularPipe` (lines 961-1000). -/
def analyzeAngularPipe (sf : SourceFileAst) : List CodeIssue :=
  sf.classes.flatMap (fun cls =>
    let nm := jsOrElse cls.name "unknown"
    let decoratorIssue :=
      if cls.decorators.any (·.name = "Pipe") then []
      else [⟨"missing-pipe-decorator-" ++ nm,
             "Missing @Pipe decorator on pipe class", .error,
             cls.lineStart, cls.lineEnd,
             "Add @Pipe decorator with required metadata to the class:\n\n@Pipe(\x7b\n  name: \x27" ++
               jsOrElse (cls.name.map jsToLower) "example" ++ "\x27\n\x7d)\n" ++ cls.text ++
               "\n\n// Don\x27t forget to add the import:\n// import \x7b Pipe, PipeTransform \x7d from \x27@angular/core\x27;",
             "https://angular.io/guide/pipes"⟩]
    let interfaceIssue :=
      if cls.implementsTexts.any (fun t => jsIncludes t "PipeTransform") then []
      else [⟨"missing-pipetransform-interface-" ++ nm,
             "Pipe class should implement PipeTransform interface", .error,
             cls.lineStart, cls.lineEnd,
             "Update class declaration to implement PipeTransform:\n\nexport class " ++
               jsTemplate cls.name ++
               " implements PipeTransform \x7b...\x7d\n\n// Don\x27t forget to add the import:\n// import \x7b Pipe, PipeTransform \x7d from \x27@angular/core\x27;",
             "https://angular.io/guide/pipes#creating-pipes-for-custom-data-transformations"⟩]
    decoratorIssue ++ interfaceIssue)

/-! ## Fenced code-block extraction

Both repositories extract fenced code blocks with a lazy regex: an opening
fence tagged with a recognized language, the shortest span to the next
closing fence. -/

/-- Try to match a tagged opening fence at the head: returns the length of
the consumed opener (three backticks plus the language word), trying the
languages in the alternation order of the regex. -/
def matchFenceOpenAt (langs : List String) (cs : List Char) : Option Nat :=
  langs.findSome? (fun l =>
    let opener := ("```" ++ l).data
    if listStartsWith cs opener then some opener.length else none)

/-- Match one full fenced block at the head of `cs`: the tagged opener,
then lazily up to and including the next closing fence.  Returns the block
and the remaining suffix. -/
def matchFenceAt (langs : List String) (cs : List Char) : Option (List Char × List Char) :=
  match matchFenceOpenAt langs cs with
  | none => none
  | some n =>
    match listIndexOfSub (cs.drop n) "```".data with
    | none => none
    | some j =>
      let totalLen := n + j + 3
      some (cs.take totalLen, cs.drop totalLen)

/-- Global scan for fenced blocks (JS `String.prototype.match` with the
`g` flag); the fuel is the input length, which bounds the scan. -/
def scanFences (langs : List String) : Nat → List Char → List (List Char)
  | 0, _ => []
  | _ + 1, [] => []
  | fuel + 1, c :: cs =>
    match matchFenceAt langs (c :: cs) with
    | some (block, rest) => block :: scanFences langs fuel rest
    | none => scanFences langs fuel cs

/-- Strip a leading tagged fence followed by an (optionally CR-prefixed)
newline from a block, as the anchored clean-up regex does. -/
def stripFenceHead (langs : List String) (s : String) : String :=
  match langs.findSome? (fun l =>
      let opener := ("```" ++ l).data
      if listStartsWith s.data opener then
        let rest := s.data.drop opener.length
        match rest with
        | '\r' :: '\n' :: tail => some tail
        | '\n' :: tail => some tail
        | _ => none
      else none) with
  | some tail => ⟨tail⟩
  | none => s

/-- Strip a trailing closing fence, as the `$`-anchored clean-up regex. -/
def stripFenceTail (s : String) : String :=
  if jsEndsWith s "```" then ⟨s.data.take (s.data.length - 3)⟩ else s

/-- The three languages recognized by the code-analysis extractor. -/
def analysisFenceLangs : List String := ["typescript", "javascript", "html"]

/-- `TsMorphCodeAnalysisRepository.extractCodeExamples` (lines 55-72):
every tagged fenced block, fences stripped and trimmed (pushed even when
the cleaned text is empty). -/
def extractCodeExamplesAnalysis (text : String) : List String :=
  (scanFences analysisFenceLangs text.data.length text.data).map
    (fun block => jsTrim (stripFenceTail (stripFenceHead analysisFenceLangs ⟨block⟩)))

/-! ## Best-practice conversion and relevant-practice lookup
(`analyzeFile` lines 16-50, `fetchRelevantBestPractices` lines 249-272) -/

/-- One heading line: a run of hashes, mandatory whitespace, a non-empty
body.  Returns the hash count and the body. -/
def headingCapture (line : String) : Option (Nat × String) :=
  let hs := line.data.takeWhile (· = '#')
  let rest := line.data.drop hs.length
  let ws := rest.takeWhile isJsWs
  let body := rest.drop ws.length
  if hs.length ≥ 1 && ws.length ≥ 1 && !body.isEmpty then some (hs.length, ⟨body⟩)
  else none

/-- Split into lines at newline characters, dropping a trailing carriage
return from each line (multiline-anchor positions of the JS regexes). -/
def splitLines (s : String) : List String :=
  (jsSplit s '\n').map (fun l => if jsEndsWith l "\r" then ⟨l.data.dropLast⟩ else l)

/-- First heading line whose hash count satisfies `pred`; returns the
trimmed captured body (the multiline heading regexes of the source). -/
def firstHeadingTitle (s : String) (pred : Nat → Bool) : Option String :=
  (splitLines s).findSome? (fun l =>
    (headingCapture l).bind (fun p => if pred p.1 then some (jsTrim p.2) else none))

/-- Try to match an absolute URL at the head of the list: the scheme, then
a non-empty run of characters that are neither whitespace nor a closing
parenthesis. -/
def tryUrlAt (cs : List Char) : Option String :=
  let pfxLen : Option Nat :=
    if listStartsWith cs "https://".data then some 8
    else if listStartsWith cs "http://".data then some 7
    else none
  match pfxLen with
  | none => none
  | some n =>
    let run := (cs.drop n).takeWhile (fun c => !isJsWs c && c ≠ ')')
    if run.isEmpty then none else some ⟨cs.take n ++ run⟩

/-- Leftmost absolute URL in a string (the URL-sniffing regex). -/
def firstUrl : List Char → Option String
  | [] => none
  | c :: cs =>
    match tryUrlAt (c :: cs) with
    | some u => some u
    | none => firstUrl cs

/-- Convert raw best-practice passages into `BestPractice` values
(`analyzeFile` lines 24-44): title sniffed from an embedded heading, URL
from an embedded absolute URL, first embedded code block as the example. -/
def mkBestPractices (practices : List String) : List BestPractice :=
  practices.enum.map (fun p =>
    let i := p.1
    let practice := p.2
    let title :=
      match firstHeadingTitle practice (fun _ => true) with
      | some t => t
      | none => "Best Practice " ++ toString (i + 1)
    let docUrl := (firstUrl practice.data).getD ""
    let codeExamples := extractCodeExamplesAnalysis practice
    let codeExample := codeExamples.headD ""
    ⟨"bp-" ++ toString (i + 1), title, practice, docUrl, codeExample⟩)

/-- `getComponentNameFromFileType` (lines 277-306). -/
def getComponentNameFromFileType : CodeFileType → String
  | .nestjsController => "controller"
  | .nestjsService => "service"
  | .nestjsModule => "module"
  | .nestjsMiddleware => "middleware"
  | .nestjsPipe => "pipe"
  | .nestjsGuard => "guard"
  | .nestjsInterceptor => "interceptor"
  | .angularComponent => "component"
  | .angularService => "service"
  | .angularModule => "module"
  | .angularDirective => "directive"
  | .angularPipe => "pipe"
  | _ => ""

/-- `getFrameworkFromFileType` (lines 311-318): tests the enum member's
string value against upper-case prefixes.  The enum values are lower-case
strings, so both tests always fail and the result is always empty. -/
def getFrameworkFromFileType (fileType : CodeFileType) : String :=
  if jsStartsWith (fileTypeToString fileType) "ANGULAR_" then "angular"
  else if jsStartsWith (fileTypeToString fileType) "NESTJS_" then "nestjs"
  else ""

/-- First non-empty practice list among the fallback terms (the
`commonTerms` loop with `break`). -/
def firstNonemptyPractices (docRepo : String → String → List String)
    (framework : String) : List String → List String
  | [] => []
  | t :: ts =>
    let practices := docRepo framework t
    if !practices.isEmpty then practices
    else firstNonemptyPractices docRepo framework ts

/-- `fetchRelevantBestPractices` (lines 249-272); the documentation
repository is the oracle `docRepo`. -/
def fetchRelevantBestPractices (docRepo : String → String → List String)
    (file : CodeFile) (framework : String) : List String :=
  let component := getComponentNameFromFileType file.fileType
  if component ≠ "" then
    let bestPractices := docRepo framework component
    if bestPractices.isEmpty then
      firstNonemptyPractices docRepo framework ["best practices", "style guide", "conventions"]
    else bestPractices
  else []

/-! ## `findIssues`, `analyzeFile`, `analyzeProject`
(lines 16-50, 77-86, 323-381) -/

/-- `findIssues` (lines 323-381): skip non-TypeScript/JavaScript files and
unknown file types; a syntax-tree construction failure (`tree = none`,
caught by the source's try/catch before any issue is pushed) also yields
no issues; otherwise run the common pass then the kind-specific pass. -/
def findIssues (file : CodeFile) (bestPractices : List BestPractice) (framework : String)
    (tree : Option SourceFileAst) : List CodeIssue :=
  if (file.language ≠ CodeLanguage.typescript && file.language ≠ CodeLanguage.javascript) ||
     file.fileType = CodeFileType.unknown then []
  else
    match tree with
    | none => []
    | some sf =>
      let common := analyzeCommonTypeScriptPatterns sf framework
      let specific :=
        if file.fileType = CodeFileType.nestjsController then analyzeNestJSController sf
        else if file.fileType = CodeFileType.nestjsService then analyzeNestJSService sf
        else if file.fileType = CodeFileType.nestjsModule then analyzeNestJSModule sf
        else if file.fileType = CodeFileType.nestjsPipe then analyzeNestJSPipe sf
        else if file.fileType = CodeFileType.nestjsGuard then analyzeNestJSGuard sf
        else if file.fileType = CodeFileType.nestjsInterceptor then analyzeNestJSInterceptor sf
        else if file.fileType = CodeFileType.angularComponent then analyzeAngularComponent sf
        else if file.fileType = CodeFileType.angularService then analyzeAngularService sf
        else if file.fileType = CodeFileType.angularModule then analyzeAngularModule sf
        else if file.fileType = CodeFileType.angularDirective then analyzeAngularDirective sf
        else if file.fileType = CodeFileType.angularPipe then analyzeAngularPipe sf
        else []
      common ++ specific

/-- `analyzeFile` (lines 16-50): detect the type, fetch and convert best
practices, find issues.  `parse` is the syntax-tree construction oracle. -/
def analyzeFile (docRepo : String → String → List String)
    (parse : String → String → Option SourceFileAst)
    (file : CodeFile) (framework : String) : CodeAnalysisResult :=
  let detectedFile := detectFileType file
  let bestPracticeStrings := fetchRelevantBestPractices docRepo detectedFile framework
  let bestPractices := mkBestPractices bestPracticeStrings
  let issues := findIssues detectedFile bestPractices framework
    (parse detectedFile.path detectedFile.content)
  ⟨detectedFile, issues, bestPractices⟩

/-- `analyzeProject` (lines 77-86): each file analyzed independently and
sequentially. -/
def analyzeProject (docRepo : String → String → List String)
    (parse : String → String → Option SourceFileAst)
    (files : List CodeFile) (framework : String) : List CodeAnalysisResult :=
  files.map (fun file => analyzeFile docRepo parse file framework)

/-! ## Fix-suggestion composer (`generateFixSuggestions`, lines 208-244) -/

/-- Strip a leading heading line (the anchored heading-removal regex: a
hash run, whitespace, a non-empty remainder without a carriage return,
then a newline). -/
def stripLeadHeading (s : String) : String :=
  let firstLine := s.data.takeWhile (· ≠ '\n')
  if firstLine.length < s.data.length && !firstLine.any (· = '\r') &&
     (headingCapture ⟨firstLine⟩).isSome then
    ⟨s.data.drop (firstLine.length + 1)⟩
  else s

/-- Replace every tagged fenced code block with a placeholder. -/
def replaceFencesWithPlaceholder : Nat → List Char → List Char
  | 0, cs => cs
  | _ + 1, [] => []
  | fuel + 1, c :: cs =>
    match matchFenceAt analysisFenceLangs (c :: cs) with
    | some (_, rest) => "[Code example]".data ++ replaceFencesWithPlaceholder fuel rest
    | none => c :: replaceFencesWithPlaceholder fuel cs

/-- `generateFixSuggestions` (lines 208-244): one formatted suggestion per
issue, enriched with up to two best-practice passages fetched per issue. -/
def generateFixSuggestions (docRepo : String → String → List String)
    (analysisResult : CodeAnalysisResult) : List String :=
  analysisResult.issues.map (fun issue =>
    let framework := getFrameworkFromFileType analysisResult.file.fileType
    let bestPractices := docRepo framework issue.description
    let s := "Issue: " ++ issue.description ++ "\n" ++
             "Severity: " ++ severityToString issue.severity ++ "\n" ++
             "Location: Lines " ++ toString issue.lineStart ++ "-" ++ toString issue.lineEnd ++
             "\n\n" ++ "Suggested Fix:\n" ++ issue.suggestedFix ++ "\n\n"
    let s :=
      if !bestPractices.isEmpty then
        s ++ "Related Best Practices:\n" ++
          String.join ((bestPractices.take 2).map (fun practice =>
            let cleaned := stripLeadHeading practice
            let cleaned : String :=
              ⟨replaceFencesWithPlaceholder cleaned.data.length cleaned.data⟩
            "- " ++ jsSubstring cleaned 0 200 ++ "...\n"))
      else s
    if issue.relatedDocumentation ≠ "" then s ++ "\nReference: " ++ issue.relatedDocumentation
    else s)

/-! ## Tool handlers (code-analysis tools, `part_004`) -/

/-- The issue shape returned by the tools. -/
structure ToolIssue where
  id : String
  description : String
  severity : IssueSeverity
  lineStart : Nat
  lineEnd : Nat
deriving DecidableEq, Repr

/-- The file-info shape returned by the tools. -/
structure FileInfo where
  path : String
  language : CodeLanguage
  fileType : CodeFileType
deriving DecidableEq, Repr

/-- Response of the `analyzeCodeFile` tool (its success payload). -/
structure AnalyzeFileResponse where
  fileInfo : FileInfo
  issues : List ToolIssue
  bestPracticeTitles : List (String × String)
  fixSuggestions : List String
deriving DecidableEq, Repr

/-- `analyzeCodeFile` tool handler (`part_004` lines 20-66): wraps the
input in a fresh `CodeFile` with unknown language and kind, analyzes it,
and maps the result; fix suggestions only when there are issues. -/
def analyzeCodeFileTool (docRepo : String → String → List String)
    (parse : String → String → Option SourceFileAst)
    (filePath fileContent framework : String) : AnalyzeFileResponse :=
  let codeFile := CodeFile.mk filePath fileContent CodeLanguage.unknown CodeFileType.unknown
  let analysisResult := analyzeFile docRepo parse codeFile framework
  let fixSuggestions :=
    if !analysisResult.issues.isEmpty then generateFixSuggestions docRepo analysisResult
    else []
  { fileInfo := ⟨analysisResult.file.path, analysisResult.file.language,
                 analysisResult.file.fileType⟩
    issues := analysisResult.issues.map (fun i =>
      ⟨i.id, i.description, i.severity, i.lineStart, i.lineEnd⟩)
    bestPracticeTitles := analysisResult.bestPractices.map (fun bp =>
      (bp.id, bp.title))
    fixSuggestions := fixSuggestions }

/-- Per-file entry of the `analyzeProject` tool response. -/
structure ProjectFileResult where
  fileInfo : FileInfo
  issues : List ToolIssue
  fixSuggestions : List String
deriving DecidableEq, Repr

/-- Project-level summary of the `analyzeProject` tool response. -/
structure ProjectSummary where
  totalFiles : Nat
  filesWithIssues : Nat
  totalIssues : Nat
  errorCount : Nat
  warningCount : Nat
  infoCount : Nat
deriving DecidableEq, Repr

/-- `analyzeProject` tool handler (`part_004` lines 85-155): analyze every
file, map the per-file results, then aggregate the summary with the
reduce/filter expressions of the source (lines 126-137). -/
def analyzeProjectTool (docRepo : String → String → List String)
    (parse : String → String → Option SourceFileAst)
    (files : List (String × String)) (framework : String) :
    ProjectSummary × List ProjectFileResult :=
  let codeFiles := files.map (fun f => CodeFile.mk f.1 f.2 CodeLanguage.unknown CodeFileType.unknown)
  let analysisResults := analyzeProject docRepo parse codeFiles framework
  let results : List ProjectFileResult := analysisResults.map (fun r =>
    { fileInfo := ⟨r.file.path, r.file.language, r.file.fileType⟩
      issues := r.issues.map (fun i => ⟨i.id, i.description, i.severity, i.lineStart, i.lineEnd⟩)
      fixSuggestions :=
        if !r.issues.isEmpty then generateFixSuggestions docRepo r else [] })
  let totalFiles := results.length
  let filesWithIssues := (results.filter (fun r => r.issues.length > 0)).length
  let totalIssues := results.foldl (fun sum r => sum + r.issues.length) 0
  let countSeverity (sev : IssueSeverity) : Nat :=
    results.foldl (fun sum r => sum + (r.issues.filter (fun i => i.severity = sev)).length) 0
  (⟨totalFiles, filesWithIssues, totalIssues,
    countSeverity .error, countSeverity .warning, countSeverity .info⟩, results)

/-! ## Claims C1, C7, C8 -/

/-- The scenario file content for claim C1: a controller-named file whose
content has no recognized annotation marker. -/
def widgetContent : String := "export class WidgetController \x7b\n\x7d\n"

/-- The queried tree of `widgetContent`: one class, no decorators, no
methods, no constructors, no imports, no comments. -/
def widgetAst : SourceFileAst where
  imports := []
  identifiers := ["WidgetController"]
  comments := []
  classes := [{ name := some "WidgetController", decorators := [], implementsTexts := [],
                methods := [], ctors := [], lineStart := 1, lineEnd := 2,
                text := "export class WidgetController \x7b\n\x7d" }]

/-- Claim C1: for `widget.controller.ts` the path-fragment rule alone
classifies the file as a NestJS controller — for every content, so the
content fallback is never consulted — and on the scenario content the
`analyzeCodeFile` tool returns exactly one issue, of error severity, whose
description mentions the missing `@Controller` decorator. -/
theorem claim_C1 (docRepo : String → String → List String)
    (parse : String → String → Option SourceFileAst)
    (hparse : parse "widget.controller.ts" widgetContent = some widgetAst) :
    (∀ c : String,
      (detectFileType (CodeFile.mk "widget.controller.ts" c .unknown .unknown)).fileType
        = CodeFileType.nestjsController) ∧
    detectPathFileType "widget.controller.ts" = CodeFileType.nestjsController ∧
    ((analyzeCodeFileTool docRepo parse "widget.controller.ts" widgetContent "nestjs").issues.map
        (fun i => (i.severity, i.description))
      = [(IssueSeverity.error, "Missing @Controller decorator on controller class")]) ∧
    (analyzeCodeFileTool docRepo parse "widget.controller.ts" widgetContent "nestjs").fileInfo.fileType
      = CodeFileType.nestjsController ∧
    jsIncludes "Missing @Controller decorator on controller class" "@Controller" = true := by
  have h1 : detectLanguageFromPath "widget.controller.ts" = CodeLanguage.typescript := by decide
  have h2 : detectPathFileType "widget.controller.ts" = CodeFileType.nestjsController := by decide
  have hdet : detectFileType
      (CodeFile.mk "widget.controller.ts" widgetContent .unknown .unknown)
      = CodeFile.mk "widget.controller.ts" widgetContent .typescript .nestjsController := by
    decide
  refine ⟨?_, h2, ?_, ?_, by decide⟩
  · intro c
    rw [detectFileType, if_pos rfl]
    unfold detectFileTypeCore detectLanguage
    simp [h1, h2]
  · simp only [analyzeCodeFileTool, analyzeFile, hdet, hparse, findIssues]
    decide
  · simp only [analyzeCodeFileTool, analyzeFile, hdet, hparse]

/-- Witness for C1 at concrete oracles. -/
theorem claim_C1_witness :
    (analyzeCodeFileTool (fun _ _ => []) (fun _ _ => some widgetAst)
        "widget.controller.ts" widgetContent "nestjs").issues.map
          (fun i => (i.severity, i.description))
      = [(IssueSeverity.error, "Missing @Controller decorator on controller class")] :=
  (claim_C1 (fun _ _ => []) (fun _ _ => some widgetAst) rfl).2.2.1

/-- `findIssues` yields no issue for a non-code language or an unknown
kind, whatever the parsed tree. -/
theorem findIssues_skip (f : CodeFile) (bps : List BestPractice) (fw : String)
    (t : Option SourceFileAst)
    (h : f.fileType = CodeFileType.unknown ∨
         (f.language ≠ CodeLanguage.typescript ∧ f.language ≠ CodeLanguage.javascript)) :
    findIssues f bps fw t = [] := by
  unfold findIssues
  rcases h with h | ⟨h1, h2⟩
  · simp [h]
  · simp [h1, h2]

/-- `findIssues` yields no issue when the syntax-tree construction
primitive fails (the caught-error path). -/
theorem findIssues_parse_failure (f : CodeFile) (bps : List BestPractice) (fw : String) :
    findIssues f bps fw none = [] := by
  unfold findIssues
  split <;> rfl

/-- Claim C8: when the detected kind is unknown, or the detected language
is neither TypeScript nor JavaScript, `analyzeFile` returns an empty issue
list; and a failure of the syntax-tree construction primitive is caught
and likewise yields an empty issue list. -/
theorem claim_C8 (docRepo : String → String → List String)
    (parse : String → String → Option SourceFileAst)
    (file : CodeFile) (framework : String) :
    (((detectFileType file).fileType = CodeFileType.unknown ∨
      ((detectFileType file).language ≠ CodeLanguage.typescript ∧
       (detectFileType file).language ≠ CodeLanguage.javascript)) →
      (analyzeFile docRepo parse file framework).issues = []) ∧
    (parse (detectFileType file).path (detectFileType file).content = none →
      (analyzeFile docRepo parse file framework).issues = []) := by
  have hissues : (analyzeFile docRepo parse file framework).issues
      = findIssues (detectFileType file)
          (mkBestPractices (fetchRelevantBestPractices docRepo (detectFileType file) framework))
          framework
          (parse (detectFileType file).path (detectFileType file).content) := rfl
  constructor
  · intro h
    rw [hissues]
    exact findIssues_skip _ _ _ _ h
  · intro h
    rw [hissues, h]
    exact findIssues_parse_failure _ _ _

/-- Witness for C8 at a concrete non-code file. -/
theorem claim_C8_witness :
    (analyzeFile (fun _ _ => []) (fun _ _ => none)
        (CodeFile.mk "notes.txt" "just text" .unknown .unknown) "nestjs").issues = [] :=
  (claim_C8 (fun _ _ => []) (fun _ _ => none)
    (CodeFile.mk "notes.txt" "just text" .unknown .unknown) "nestjs").1 (Or.inl (by decide))

/-- Folding addition of a measure over a list equals the initial value
plus the sum of the mapped measures. -/
theorem foldl_add_measure {α : Type} (g : α → Nat) :
    ∀ (l : List α) (n : Nat), l.foldl (fun s x => s + g x) n = n + (l.map g).sum
  | [], n => by simp
  | x :: xs, n => by
    simp [foldl_add_measure g xs (n + g x), Nat.add_assoc]

/-- The length of a flattened list of issue lists is the sum of the
per-file issue counts. -/
theorem length_flatMap_eq {α β : Type} (f : α → List β) :
    ∀ (l : List α), (l.flatMap f).length = (l.map (fun x => (f x).length)).sum
  | [] => by simp
  | x :: xs => by simp [List.flatMap_cons, length_flatMap_eq f xs]

/-- Filtering a flattened list filters each piece. -/
theorem filter_flatMap_eq {α β : Type} (f : α → List β) (p : β → Bool) :
    ∀ (l : List α), (l.flatMap f).filter p = l.flatMap (fun x => (f x).filter p)
  | [] => by simp
  | x :: xs => by simp [List.flatMap_cons, List.filter_append, filter_flatMap_eq f p xs]

/-- Tree and file data for the C7 scenario: a controller file with two
classes, both missing the defining decorator (two errors). -/
def c7AstTwoErrors : SourceFileAst where
  imports := []
  identifiers := []
  comments := []
  classes :=
    [{ name := some "AlphaController", decorators := [], implementsTexts := [],
       methods := [], ctors := [], lineStart := 1, lineEnd := 2, text := "class AlphaController" },
     { name := some "BetaController", decorators := [], implementsTexts := [],
       methods := [], ctors := [], lineStart := 4, lineEnd := 5, text := "class BetaController" }]

/-- Tree for the C7 scenario: a decorated controller with one public
method lacking an HTTP-verb decorator (one warning). -/
def c7AstOneWarning : SourceFileAst where
  imports := []
  identifiers := []
  comments := []
  classes :=
    [{ name := some "GammaController",
       decorators := [{ name := "Controller", args := [], lineStart := 1, lineEnd := 1 }],
       implementsTexts := [], methods :=
         [{ name := "getAll", decorators := [], isPrivate := false, isProtected := false,
            lineStart := 3, lineEnd := 5, text := "getAll()" }],
       ctors := [], lineStart := 2, lineEnd := 6, text := "class GammaController" }]

/-- Parse oracle for the C7 scenario. -/
def c7Parse : String → String → Option SourceFileAst := fun path _ =>
  if path = "alpha.controller.ts" then some c7AstTwoErrors
  else if path = "gamma.controller.ts" then some c7AstOneWarning
  else none

/-- The three scenario files of C7: two errors, zero issues, one warning. -/
def c7Files : List (String × String) :=
  [("alpha.controller.ts", "class AlphaController"),
   ("readme.txt", "just text"),
   ("gamma.controller.ts", "class GammaController")]

/-- Claim C7: the `analyzeProject` summary satisfies, for every file list:
`totalIssues` is the sum of the per-file issue counts, `filesWithIssues`
counts the files with at least one issue, and each severity counter counts
the issues of that severity across all files; and on the concrete
three-file scenario (two errors / no issues / one warning) the summary is
`totalFiles 3, filesWithIssues 2, totalIssues 3, error 2, warning 1,
info 0`. -/
theorem claim_C7 (docRepo : String → String → List String)
    (parse : String → String → Option SourceFileAst)
    (files : List (String × String)) (framework : String) :
    ((analyzeProjectTool docRepo parse files framework).1.totalFiles
        = (analyzeProjectTool docRepo parse files framework).2.length) ∧
    ((analyzeProjectTool docRepo parse files framework).1.totalIssues
        = ((analyzeProjectTool docRepo parse files framework).2.flatMap
            (fun r => r.issues)).length) ∧
    ((analyzeProjectTool docRepo parse files framework).1.filesWithIssues
        = ((analyzeProjectTool docRepo parse files framework).2.filter
            (fun r => !r.issues.isEmpty)).length) ∧
    ((analyzeProjectTool docRepo parse files framework).1.errorCount
        = (((analyzeProjectTool docRepo parse files framework).2.flatMap
            (fun r => r.issues)).filter (fun i => i.severity = IssueSeverity.error)).length) ∧
    ((analyzeProjectTool docRepo parse files framework).1.warningCount
        = (((analyzeProjectTool docRepo parse files framework).2.flatMap
            (fun r => r.issues)).filter (fun i => i.severity = IssueSeverity.warning)).length) ∧
    ((analyzeProjectTool docRepo parse files framework).1.infoCount
        = (((analyzeProjectTool docRepo parse files framework).2.flatMap
            (fun r => r.issues)).filter (fun i => i.severity = IssueSeverity.info)).length) ∧
    (analyzeProjectTool (fun _ _ => []) c7Parse c7Files "nestjs").1
      = ⟨3, 2, 3, 2, 1, 0⟩ := by
  refine ⟨rfl, ?_, ?_, ?_, ?_, ?_, by decide⟩
  · show (analyzeProjectTool docRepo parse files framework).2.foldl _ 0 = _
    rw [foldl_add_measure, length_flatMap_eq]
    simp
  · show ((analyzeProjectTool docRepo parse files framework).2.filter
        (fun r => r.issues.length > 0)).length = _
    congr 1
    apply List.filter_congr
    intro r _
    cases r.issues <;> simp
  · show (analyzeProjectTool docRepo parse files framework).2.foldl _ 0 = _
    rw [foldl_add_measure, filter_flatMap_eq, length_flatMap_eq]
    simp
  · show (analyzeProjectTool docRepo parse files framework).2.foldl _ 0 = _
    rw [foldl_add_measure, filter_flatMap_eq, length_flatMap_eq]
    simp
  · show (analyzeProjectTool docRepo parse files framework).2.foldl _ 0 = _
    rw [foldl_add_measure, filter_flatMap_eq, length_flatMap_eq]
    simp

/-! ## Documentation data model
(from `src/core/domain/entities/documentation.ts`) -/

/-- `DocumentationTopic` entity. -/
structure DocTopic where
  id : String
  title : String
  url : String
  content : String
  bestPractices : List String
  codeExamples : List String
deriving DecidableEq, Repr

/-- `DocumentationSection` entity (topics appended as discovered). -/
structure DocSection where
  id : String
  title : String
  url : String
  topics : List DocTopic
deriving DecidableEq, Repr

/-- `DocumentationSource` entity (sections appended by discovery). -/
structure DocSource where
  id : String
  name : String
  baseUrl : String
  version : String
  sections : List DocSection
deriving DecidableEq, Repr

/-- The `frameworkSources` record of `WebDocumentationRepository`: fixed
keys `nestjs` and `angular`, in insertion order. -/
structure RepoState where
  nestjsSources : List DocSource
  angularSources : List DocSource
deriving DecidableEq, Repr

/-- One entry of a GitHub directory listing as consumed by discovery. -/
structure GhItem where
  name : String
  itemType : String
  url : String
  htmlUrl : String
  downloadUrl : String
deriving DecidableEq, Repr

/-- The remote-content oracle: `listDir` models an `axios.get` on a
contents API URL returning an array (`none` = request failure or non-array
data), `raw` models an `axios.get` of raw file content (`none` =
failure). -/
structure Fetcher where
  listDir : String → Option (List GhItem)
  raw : String → Option String

/-- `GITHUB_RAW_CONTENT_BASE`. -/
def githubRawContentBase : String := "https://raw.githubusercontent.com"

/-- `GITHUB_API_BASE`. -/
def githubApiBase : String := "https://api.github.com/repos"

/-- The initial `frameworkSources` record (lines 13-32): one source per
framework, sections empty until discovery. -/
def initialState : RepoState where
  nestjsSources := [⟨"nestjs-github", "NestJS Documentation (GitHub)",
    "https://github.com/nestjs/docs.nestjs.com/tree/master/content", "master", []⟩]
  angularSources := [⟨"angular-github", "Angular Documentation (GitHub)",
    "https://github.com/angular/angular/tree/main/adev/src/content/guide", "main", []⟩]

/-- `fetchRawGitHubContent` (lines 736-744): empty string on failure. -/
def fetchRawGitHubContent (f : Fetcher) (url : String) : String := (f.raw url).getD ""

/-! ## Markdown heuristics -/

/-- Match the decorative-title element at the head of the list and return
the captured title attribute. -/
def tryDecorativeAt (cs : List Char) : Option String :=
  match dropLit "<docs-decorative-header".data cs with
  | none => none
  | some r1 =>
    let ws := r1.takeWhile isJsWs
    if ws.isEmpty then none
    else
      match dropLit "title=\"".data (r1.drop ws.length) with
      | none => none
      | some r2 =>
        let cap := r2.takeWhile (· ≠ '"')
        if cap.isEmpty then none
        else if cap.length < r2.length then some ⟨cap⟩ else none

/-- Leftmost decorative-title element in the content. -/
def firstDecorativeTitle : List Char → Option String
  | [] => none
  | c :: cs =>
    match tryDecorativeAt (c :: cs) with
    | some t => some t
    | none => firstDecorativeTitle cs

/-- `extractTitleFromMarkdown` (lines 749-771): first-level heading, else
the Angular decorative-title marker, else a second-level heading, else the
first non-empty line; each candidate trimmed. -/
def extractTitleFromMarkdown (content : String) : Option String :=
  match firstHeadingTitle content (fun h => h = 1) with
  | some t => some t
  | none =>
    match firstDecorativeTitle content.data with
    | some t => some (jsTrim t)
    | none =>
      match firstHeadingTitle content (fun h => h = 2) with
      | some t => some t
      | none =>
        match (splitLines content).find? (fun l => !l.isEmpty) with
        | some l => some (jsTrim l)
        | none => none

/-- Title from markdown with the formatted-filename fallback (the
`extractTitleFromMarkdown(content) || formatted` idiom; an empty extracted
title is falsy and also falls back). -/
def jsTitleOrElse (t : Option String) (fallback : String) : String :=
  jsOrElse t fallback

/-- Generic global lazy-regex scan: at each position try to match a step;
on success emit the capture and continue after the match.  The fuel is the
input length. -/
def scanGlobal {α : Type} (step : List Char → Option (α × List Char)) :
    Nat → List Char → List α
  | 0, _ => []
  | _ + 1, [] => []
  | fuel + 1, c :: cs =>
    match step (c :: cs) with
    | some (a, rest) => a :: scanGlobal step fuel rest
    | none => scanGlobal step fuel cs

/-- The four languages recognized by the documentation extractor. -/
def docFenceLangs : List String := ["typescript", "javascript", "html", "css"]

/-- Match a `<docs-code ...>body</docs-code>` element at the head and
return its trimmed body and the rest of the input. -/
def matchDocsCodePairAt (cs : List Char) : Option (String × List Char) :=
  match dropLit "<docs-code".data cs with
  | none => none
  | some r1 =>
    let attrs := r1.takeWhile (· ≠ '>')
    match r1.drop attrs.length with
    | '>' :: r3 =>
      match listIndexOfSub r3 "</docs-code>".data with
      | none => none
      | some j => some (jsTrim ⟨r3.take j⟩, r3.drop (j + "</docs-code>".data.length))
    | _ => none

/-- Capture a quoted attribute value (`attr=` then a quote, a non-empty
run without quotes, and a closing quote); returns the value and the rest
of the attribute span after it. -/
def scanQuotedAttr (attr : String) (cs : List Char) : Option (String × List Char) :=
  match listIndexOfSub cs (attr ++ "=").data with
  | none => none
  | some i =>
    match cs.drop (i + (attr ++ "=").data.length) with
    | q :: r2 =>
      if q = '"' || q = Char.ofNat 39 then
        let cap := r2.takeWhile (fun c => c ≠ '"' && c ≠ Char.ofNat 39)
        if cap.isEmpty then none
        else if cap.length < r2.length then some (⟨cap⟩, r2.drop (cap.length + 1))
        else none
      else none
    | [] => none

/-- Match a `<docs-code ... header="..." ... path="..." ...>` element at
the head: the header and path attribute values (header before path, no
closing angle bracket in between) and the rest after the tag. -/
def matchDocsCodeHeaderPathAt (cs : List Char) : Option ((String × String) × List Char) :=
  match dropLit "<docs-code".data cs with
  | none => none
  | some r1 =>
    let attrs := r1.takeWhile (· ≠ '>')
    if attrs.length = r1.length then none
    else
      match scanQuotedAttr "header" attrs with
      | none => none
      | some (h, restAttrs) =>
        match scanQuotedAttr "path" restAttrs with
        | none => none
        | some (p, _) => some ((h, p), r1.drop (attrs.length + 1))

/-- Match a `visibleRegion="..."` attribute at the head. -/
def matchVisibleRegionAt (cs : List Char) : Option (String × List Char) :=
  match dropLit "visibleRegion=".data cs with
  | none => none
  | some r =>
    match r with
    | q :: r2 =>
      if q = '"' || q = Char.ofNat 39 then
        let cap := r2.takeWhile (fun c => c ≠ '"' && c ≠ Char.ofNat 39)
        if cap.isEmpty then none
        else if cap.length < r2.length then some (⟨cap⟩, r2.drop (cap.length + 1))
        else none
      else none
    | [] => none

/-- `WebDocumentationRepository.extractCodeExamples` (lines 776-844):
tagged fenced blocks (non-empty after cleaning), `<docs-code>` element
bodies, placeholder entries for header/path references and visibleRegion
attributes, and a final pass tagging modern control-flow syntax. -/
def extractCodeExamplesDoc (content : String) : List String :=
  let cs := content.data
  let fenceExamples := (scanFences docFenceLangs cs.length cs).filterMap (fun block =>
    let cleanCode := jsTrim (stripFenceTail (stripFenceHead docFenceLangs ⟨block⟩))
    if cleanCode = "" then none else some cleanCode)
  let pairExamples := (scanGlobal matchDocsCodePairAt cs.length cs).filterMap (fun body =>
    if body = "" then none else some body)
  let headerPathExamples := (scanGlobal matchDocsCodeHeaderPathAt cs.length cs).map (fun hp =>
    "// Header: " ++ hp.1 ++ "\n// Path reference: " ++ hp.2 ++
      "\n// Actual code would be loaded from this path")
  let regionExamples := (scanGlobal matchVisibleRegionAt cs.length cs).map (fun v =>
    "// Visible region: " ++ v ++
      "\n// This references a specific section of code in an example file")
  let codeExamples := fenceExamples ++ pairExamples ++ headerPathExamples ++ regionExamples
  codeExamples.map (fun ex =>
    if jsIncludes ex "@if" || jsIncludes ex "@for" || jsIncludes ex "@switch" then
      "// Modern Angular control flow syntax\n" ++ ex
    else ex)

/-- `fetchTopicContent` (lines 849-874): convert the topic's page URL to a
raw-content URL, fetch, and return a new topic value carrying the content
and its extracted code examples (the stored topic is not modified). -/
def fetchTopicContent (f : Fetcher) (topic : DocTopic) : DocTopic :=
  let rawUrl := jsReplaceFirst (jsReplaceFirst
    (jsReplaceFirst topic.url "https://github.com" githubRawContentBase) "/blob/" "/")
    "/tree/" "/"
  let content := fetchRawGitHubContent f rawUrl
  let codeExamples := extractCodeExamplesDoc content
  ⟨topic.id, topic.title, topic.url, content, topic.bestPractices, codeExamples⟩

/-! ## Read operations: `getTopicById`, `searchTopics`
(lines 314-343 and 348-385).  Both only read the stored hierarchy; the
returned state is the input state (there is no write in their bodies). -/

/-- The values of the `frameworkSources` record in insertion order. -/
def allFrameworkSourceLists (s : RepoState) : List (List DocSource) :=
  [s.nestjsSources, s.angularSources]

/-- The nested search loops of `getTopicById` (lines 317-335): first topic
whose enclosing source matches `sourceId` and whose id matches `topicId`,
scanning frameworks, sources, sections and topics in order. -/
def getTopicByIdLookup (f : Fetcher) (s : RepoState) (sourceId topicId : String) :
    Option DocTopic :=
  let foundTopic := (allFrameworkSourceLists s).findSome? (fun frameworkSources =>
    frameworkSources.findSome? (fun source =>
      if source.id = sourceId then
        source.sections.findSome? (fun sec => sec.topics.find? (fun t => t.id = topicId))
      else none))
  match foundTopic with
  | none => none
  | some t => if t.content = "" then some (fetchTopicContent f t) else some t

/-- `getTopicById` as a state transformer: a pure read. -/
def getTopicByIdSt (f : Fetcher) (s : RepoState) (sourceId topicId : String) :
    Option DocTopic × RepoState :=
  (getTopicByIdLookup f s sourceId topicId, s)

/-- The source-lookup loops of `searchTopics` (lines 353-362). -/
def findSourceById (s : RepoState) (sourceId : String) : Option DocSource :=
  (allFrameworkSourceLists s).findSome? (fun frameworkSources =>
    frameworkSources.find? (fun source => source.id = sourceId))

/-- The result accumulation of `searchTopics` (lines 366-384): every topic
is content-upgraded on demand, then kept when its title or content
case-insensitively contains the query. -/
def searchTopicsCompute (f : Fetcher) (s : RepoState) (sourceId query : String) :
    List DocTopic :=
  let normalizedQuery := jsToLower query
  match findSourceById s sourceId with
  | none => []
  | some source =>
    source.sections.foldl (fun acc sec =>
      sec.topics.foldl (fun acc topic =>
        let topicWithContent := if topic.content = "" then fetchTopicContent f topic else topic
        if jsIncludes (jsToLower topicWithContent.title) normalizedQuery ||
           jsIncludes (jsToLower topicWithContent.content) normalizedQuery then
          acc ++ [topicWithContent]
        else acc) acc) []

/-- `searchTopics` as a state transformer: a pure read. -/
def searchTopicsSt (f : Fetcher) (s : RepoState) (sourceId query : String) :
    List DocTopic × RepoState :=
  (searchTopicsCompute f s sourceId query, s)

/-! ## Best-practice passage extraction
(`extractBestPractices`, lines 879-956): four independent heuristics run
unconditionally, their results concatenated in order. -/

/-- Case-insensitive literal match at the head (the word is given in lower
case); returns the rest. -/
def matchLitCI (w : String) (cs : List Char) : Option (List Char) :=
  if (cs.take w.data.length).map jsToLowerChar = w.data then some (cs.drop w.data.length)
  else none

/-- A heading boundary for the capture-terminating lookahead: one to three
hashes followed by a whitespace character (four or more hashes fail the
bounded repetition followed by whitespace). -/
def headingBoundaryAt (cs : List Char) : Bool :=
  let hs := cs.takeWhile (· = '#')
  1 ≤ hs.length && hs.length ≤ 3 &&
    (match cs.drop hs.length with
     | c :: _ => isJsWs c
     | [] => false)

/-- Number of characters consumed by the lazy tail of a heading-section
capture: up to the next heading boundary or the end of the input. -/
def extendToBoundary : List Char → Nat
  | [] => 0
  | c :: cs => if headingBoundaryAt (c :: cs) then 0 else 1 + extendToBoundary cs

/-- Match a best-practice heading at the head of the list: one to three
hashes, whitespace, then the phrase words (case-insensitive, separated by
whitespace).  Returns the match length. -/
def matchPhraseHeadingAt (words : List String) (cs : List Char) : Option Nat :=
  let hs := cs.takeWhile (· = '#')
  if hs.length < 1 || 3 < hs.length then none
  else
    let r := cs.drop hs.length
    let ws := r.takeWhile isJsWs
    if ws.isEmpty then none
    else
      let rec go : List String → List Char → Option (List Char)
        | [], rest => some rest
        | w :: wsmore, rest =>
          match matchLitCI w rest with
          | none => none
          | some r2 =>
            match wsmore with
            | [] => some r2
            | _ =>
              let ws2 := r2.takeWhile isJsWs
              if ws2.isEmpty then none else go wsmore (r2.drop ws2.length)
      match go words (r.drop ws.length) with
      | none => none
      | some rest => some (cs.length - rest.length)

/-- Heuristic 1: for each of the five fixed heading phrases, capture from
the first matching heading to the next equal-or-higher heading or the end
of the document. -/
def bpHeadingSections (content : String) : List String :=
  let phrases := [["best", "practices"], ["recommended", "practices"],
                  ["style", "guide"], ["guidelines"], ["conventions"]]
  phrases.filterMap (fun phrase =>
    match scanFirst (matchPhraseHeadingAt phrase) content.data with
    | none => none
    | some (i, len) =>
      let ext := extendToBoundary (content.data.drop (i + len))
      some (jsTrim ⟨(content.data.drop i).take (len + ext)⟩))

/-- A bullet marker: an asterisk, a dash, or a digit run followed by a
dot. -/
def matchBulletMarker (cs : List Char) : Option (List Char) :=
  match cs with
  | '*' :: r => some r
  | '-' :: r => some r
  | _ =>
    let ds := cs.takeWhile (fun c => '0' ≤ c && c ≤ '9')
    if ds.isEmpty then none
    else
      match cs.drop ds.length with
      | '.' :: r => some r
      | _ => none

/-- One line terminator (carriage return + newline, newline, or carriage
return, in the alternation order of the source). -/
def matchNewlineSeq (cs : List Char) : Option (List Char) :=
  match cs with
  | '\r' :: '\n' :: r => some r
  | '\n' :: r => some r
  | '\r' :: r => some r
  | _ => none

/-- One bullet item: a line terminator, a bullet marker, whitespace, then
a non-empty run of non-terminator characters. -/
def matchBulletItem (cs : List Char) : Option (List Char) :=
  match matchNewlineSeq cs with
  | none => none
  | some r1 =>
    match matchBulletMarker r1 with
    | none => none
    | some r2 =>
      let ws := r2.takeWhile isJsWs
      if ws.isEmpty then none
      else
        let r3 := r2.drop ws.length
        let body := r3.takeWhile (fun c => c ≠ '\n' && c ≠ '\r')
        if body.isEmpty then none else some (r3.drop body.length)

/-- Greedily consume one or more bullet items; returns the rest. -/
def matchBulletItems : Nat → List Char → Option (List Char)
  | 0, _ => none
  | fuel + 1, cs =>
    match matchBulletItem cs with
    | none => none
    | some rest =>
      match matchBulletItems fuel rest with
      | some rest2 => some rest2
      | none => some rest

/-- A contiguous bullet/numbered-list block at the head of the list. -/
def matchBulletBlockAt (cs : List Char) : Option (String × List Char) :=
  match matchBulletItems (cs.length + 1) cs with
  | none => none
  | some rest => some (⟨cs.take (cs.length - rest.length)⟩, rest)

/-- Heuristic 2: contiguous bullet blocks whose text contains one of the
trigger words (case-insensitive), trimmed. -/
def bpBulletSections (content : String) : List String :=
  (scanGlobal matchBulletBlockAt content.data.length content.data).filterMap (fun blk =>
    let lower := jsToLower blk
    if jsIncludes lower "best practice" || jsIncludes lower "recommend" ||
       jsIncludes lower "should" || jsIncludes lower "always" || jsIncludes lower "never" then
      some (jsTrim blk)
    else none)

/-- Heuristic 3: each recognized-language code block whose 200 preceding
characters (before the block's first occurrence in the document) contain a
trigger phrase; the trimmed preceding text and the block concatenated. -/
def bpCodeBlockSections (content : String) : List String :=
  (scanFences analysisFenceLangs content.data.length content.data).filterMap (fun blockL =>
    let block : String := ⟨blockL⟩
    match listIndexOfSub content.data blockL with
    | none => none
    | some idx =>
      let precedingText := jsSubstring content (idx - 200) idx
      let lower := jsToLower precedingText
      if jsIncludes lower "best practice" || jsIncludes lower "recommend" ||
         jsIncludes lower "preferred way" || jsIncludes lower "correct" ||
         jsIncludes lower "example" then
        some (jsTrim precedingText ++ "\n\n" ++ block)
      else none)

/-- Match the Do's and Don'ts heading at the head of the list (one to
three hashes, whitespace, then the phrase with a plain apostrophe from the
duplicated-apostrophe character class, case-insensitive); returns the
match length. -/
def matchDosAndDontsAt (cs : List Char) : Option Nat :=
  let hs := cs.takeWhile (· = '#')
  if hs.length < 1 || 3 < hs.length then none
  else
    let r := cs.drop hs.length
    let ws := r.takeWhile isJsWs
    if ws.isEmpty then none
    else
      match matchLitCI "do" (r.drop ws.length) with
      | none => none
      | some r2 =>
        match r2 with
        | q1 :: r3 =>
          if q1 = Char.ofNat 39 then
            match matchLitCI "s and don" r3 with
            | none => none
            | some r4 =>
              match r4 with
              | q2 :: r5 =>
                if q2 = Char.ofNat 39 then
                  match matchLitCI "ts" r5 with
                  | none => none
                  | some rest => some (cs.length - rest.length)
                else none
              | [] => none
          else none
        | [] => none

/-- Heuristic 4: the Do's and Don'ts section (heading included) up to the
next heading or end of document, trimmed. -/
def bpDosAndDonts (content : String) : List String :=
  match scanFirst matchDosAndDontsAt content.data with
  | none => []
  | some (i, len) =>
    let ext := extendToBoundary (content.data.drop (i + len))
    [jsTrim ⟨(content.data.drop i).take (len + ext)⟩]

/-- `extractBestPractices` (lines 879-956): fetch the content if missing,
then run the four heuristics and concatenate their results in order. -/
def extractBestPractices (f : Fetcher) (topic : DocTopic) : List String :=
  let fullTopic := if topic.content = "" then fetchTopicContent f topic else topic
  let content := fullTopic.content
  bpHeadingSections content ++ bpBulletSections content ++
    bpCodeBlockSections content ++ bpDosAndDonts content

/-! ## Tree discovery
(`fetchSections` and framework-specific walks, lines 430-731) -/

/-- Uppercase the first character when it is a word character (the
start-anchored word regex replacement). -/
def capFirstIfWord (s : String) : String :=
  match s.data with
  | [] => ""
  | c :: cs => ⟨(if isWordChar c then jsToUpperChar c else c) :: cs⟩

/-- Uppercase every word character at a word boundary (preceded by nothing
or by a non-word character). -/
def capAtWordBoundariesAux : Option Char → List Char → List Char
  | _, [] => []
  | prev, c :: cs =>
    let boundary :=
      match prev with
      | none => true
      | some p => !isWordChar p
    (if isWordChar c && boundary then jsToUpperChar c else c) ::
      capAtWordBoundariesAux (some c) cs

/-- Global word-boundary capitalization. -/
def capAtWordBoundaries (s : String) : String := ⟨capAtWordBoundariesAux none s.data⟩

/-- Uppercase the first word character and every word character directly
preceded by whitespace (the start-or-after-whitespace word regex). -/
def capAfterWsAux : Option Char → List Char → List Char
  | _, [] => []
  | prev, c :: cs =>
    let boundary :=
      match prev with
      | none => true
      | some p => isJsWs p
    (if isWordChar c && boundary then jsToUpperChar c else c) ::
      capAfterWsAux (some c) cs

/-- Global start-or-after-whitespace capitalization. -/
def capAfterWs (s : String) : String := ⟨capAfterWsAux none s.data⟩

/-- Section title formatting shared by the discovery walks: dashes to
spaces, first word character capitalized, then every word start. -/
def formatSectionTitle (name : String) : String :=
  capAtWordBoundaries (capFirstIfWord (jsReplaceAllChar name '-' ' '))

/-- Section identifier: `section-` plus the lower-cased name with
whitespace runs dashed. -/
def sectionIdOfName (name : String) : String :=
  "section-" ++ jsWsRunsToDash (jsToLower name)

/-- Topic title formatting: drop the `.md` suffix, dashes to spaces,
capitalize the first character and every character after whitespace. -/
def formatTopicTitle (name : String) : String :=
  capAfterWs (jsReplaceAllChar (jsReplaceFirst name ".md" "") '-' ' ')

/-- Topic identifier: `topic-` plus the lower-cased name with whitespace
runs dashed and the first `.md` removed. -/
def topicIdOfName (name : String) : String :=
  "topic-" ++ jsReplaceFirst (jsWsRunsToDash (jsToLower name)) ".md" ""

/-- Parse owner, repo and content path out of a GitHub tree URL
(`urlParts[0]`, `urlParts[1]`, `urlParts.slice(4).join`). -/
def parseGithubRepoUrl (baseUrl : String) : String × String × String :=
  let urlParts := jsSplit (jsReplaceFirst baseUrl "https://github.com/" "") '/'
  (urlParts.headD "", ((urlParts.drop 1).headD "", jsJoin (urlParts.drop 4) '/'))

/-- The contents-API URL for a repo path and branch. -/
def contentsApiUrl (owner repo path branch : String) : String :=
  githubApiBase ++ "/" ++ owner ++ "/" ++ repo ++ "/contents/" ++ path ++ "?ref=" ++ branch

/-- `fetchNestJSGitHubTopics` (lines 497-531): one lazily-loaded topic per
markdown file in the listed directory. -/
def fetchNestJSGitHubTopics (f : Fetcher) (sec : DocSection) (url : String) : DocSection :=
  match f.listDir url with
  | none => sec
  | some items =>
    items.foldl (fun acc item =>
      if item.itemType = "file" && jsEndsWith item.name ".md" then
        let title := formatTopicTitle item.name
        let topic : DocTopic := ⟨topicIdOfName item.name, title, item.htmlUrl, "", [], []⟩
        { acc with topics := acc.topics ++ [topic] }
      else acc) sec

/-- `fetchNestJSGitHubSections` (lines 445-492): one section per listed
directory, topics fetched eagerly for the listing but contents lazy;
sections with zero topics are not attached. -/
def fetchNestJSGitHubSections (f : Fetcher) (source : DocSource) : DocSource :=
  let parsed := parseGithubRepoUrl source.baseUrl
  let apiUrl := contentsApiUrl parsed.1 parsed.2.1 parsed.2.2 source.version
  match f.listDir apiUrl with
  | none => source
  | some items =>
    items.foldl (fun acc item =>
      if item.itemType = "dir" then
        let sec0 : DocSection :=
          ⟨sectionIdOfName item.name, formatSectionTitle item.name, item.htmlUrl, []⟩
        let sec := fetchNestJSGitHubTopics f sec0 item.url
        if !sec.topics.isEmpty then { acc with sections := acc.sections ++ [sec] } else acc
      else acc) source

/-- `fetchAngularDirectoryTopics` (lines 683-731): one topic per markdown
file, content fetched eagerly, title extracted from the content with the
formatted filename as fallback. -/
def fetchAngularDirectoryTopics (f : Fetcher) (sec : DocSection) (url : String) : DocSection :=
  match f.listDir url with
  | none => sec
  | some items =>
    items.foldl (fun acc item =>
      if item.itemType = "file" && jsEndsWith item.name ".md" then
        let content := fetchRawGitHubContent f item.downloadUrl
        let title := jsTitleOrElse (extractTitleFromMarkdown content) (formatTopicTitle item.name)
        let topic : DocTopic := ⟨topicIdOfName item.name, title, item.htmlUrl, content, [],
                                 extractCodeExamplesDoc content⟩
        { acc with topics := acc.topics ++ [topic] }
      else acc) sec

/-- The fixed logical-section taxonomy for Angular (lines 551-587), in
record insertion order. -/
structure AngularSectionsMap where
  fundamentals : DocSection
  components : DocSection
  dependencyInjection : DocSection
  forms : DocSection
  routing : DocSection
  bestPractices : DocSection
  other : DocSection
deriving DecidableEq, Repr

/-- Key into the Angular taxonomy. -/
inductive AngularSectionKey where
  | fundamentals | components | dependencyInjection | forms | routing | bestPractices | other
deriving DecidableEq, Repr

/-- Initial (empty) taxonomy sections with their display URLs. -/
def initialAngularSections (owner repo branch path : String) : AngularSectionsMap :=
  let base := "https://github.com/" ++ owner ++ "/" ++ repo ++ "/tree/" ++ branch ++ "/" ++ path
  { fundamentals := ⟨"section-fundamentals", "Fundamentals", base ++ "/fundamentals", []⟩
    components := ⟨"section-components", "Components", base ++ "/components", []⟩
    dependencyInjection := ⟨"section-dependency-injection", "Dependency Injection", base ++ "/di", []⟩
    forms := ⟨"section-forms", "Forms", base ++ "/forms", []⟩
    routing := ⟨"section-routing", "Routing", base ++ "/routing", []⟩
    bestPractices := ⟨"section-best-practices", "Best Practices & Style Guide", base ++ "/style-guide", []⟩
    other := ⟨"section-other", "Other Topics", base, []⟩ }

/-- Read a taxonomy entry. -/
def getAngularSection (m : AngularSectionsMap) : AngularSectionKey → DocSection
  | .fundamentals => m.fundamentals
  | .components => m.components
  | .dependencyInjection => m.dependencyInjection
  | .forms => m.forms
  | .routing => m.routing
  | .bestPractices => m.bestPractices
  | .other => m.other

/-- Replace a taxonomy entry. -/
def setAngularSection (m : AngularSectionsMap) (key : AngularSectionKey)
    (sec : DocSection) : AngularSectionsMap :=
  match key with
  | .fundamentals => { m with fundamentals := sec }
  | .components => { m with components := sec }
  | .dependencyInjection => { m with dependencyInjection := sec }
  | .forms => { m with forms := sec }
  | .routing => { m with routing := sec }
  | .bestPractices => { m with bestPractices := sec }
  | .other => { m with other := sec }

/-- The content/filename bucketing chain for top-level Angular markdown
files (lines 631-650). -/
def categorizeAngularFile (content fileName : String) : AngularSectionKey :=
  let lowerContent := jsToLower content
  let lowerFilename := jsToLower fileName
  if jsIncludes lowerContent "component" || jsIncludes lowerFilename "component" then
    .components
  else if jsIncludes lowerContent "dependency injection" || jsIncludes lowerFilename "inject" then
    .dependencyInjection
  else if jsIncludes lowerContent "form" || jsIncludes lowerFilename "form" then
    .forms
  else if jsIncludes lowerContent "router" || jsIncludes lowerContent "routing" ||
          jsIncludes lowerFilename "route" || jsIncludes lowerFilename "navigation" then
    .routing
  else if jsIncludes lowerContent "best practice" || jsIncludes lowerContent "style guide" ||
          jsIncludes lowerFilename "best" || jsIncludes lowerFilename "style" then
    .bestPractices
  else if jsStartsWith lowerFilename "introduction" || jsStartsWith lowerFilename "getting-started" ||
          jsStartsWith lowerFilename "overview" || jsStartsWith lowerFilename "concept" then
    .fundamentals
  else .other

/-- The known category directories and their taxonomy keys (lines 596-599). -/
def angularKnownDirKey (dirName : String) : Option AngularSectionKey :=
  if dirName = "components" then some .components
  else if dirName = "forms" then some .forms
  else if dirName = "routing" then some .routing
  else if dirName = "di" then some .dependencyInjection
  else if dirName = "style-guide" then some .bestPractices
  else none

/-- One step of the Angular item loop (lines 590-666), threading the
taxonomy map and the source being populated. -/
def angularItemStep (f : Fetcher) (acc : AngularSectionsMap × DocSource) (item : GhItem) :
    AngularSectionsMap × DocSource :=
  let m := acc.1
  let src := acc.2
  if item.itemType = "dir" then
    let dirName := jsToLower item.name
    match angularKnownDirKey dirName with
    | some key =>
      (setAngularSection m key (fetchAngularDirectoryTopics f (getAngularSection m key) item.url),
       src)
    | none =>
      let sec0 : DocSection :=
        ⟨sectionIdOfName item.name, formatSectionTitle item.name, item.htmlUrl, []⟩
      let sec := fetchAngularDirectoryTopics f sec0 item.url
      if !sec.topics.isEmpty then (m, { src with sections := src.sections ++ [sec] })
      else (m, src)
  else if item.itemType = "file" && jsEndsWith item.name ".md" then
    let content := fetchRawGitHubContent f item.downloadUrl
    let title := jsTitleOrElse (extractTitleFromMarkdown content) (formatTopicTitle item.name)
    let key := categorizeAngularFile content item.name
    let topic : DocTopic := ⟨topicIdOfName item.name, title, item.htmlUrl, content, [],
                             extractCodeExamplesDoc content⟩
    let target := getAngularSection m key
    (setAngularSection m key { target with topics := target.topics ++ [topic] }, src)
  else acc

/-- The taxonomy keys in record insertion order (the final attach loop,
lines 669-673). -/
def angularSectionKeys : List AngularSectionKey :=
  [.fundamentals, .components, .dependencyInjection, .forms, .routing, .bestPractices, .other]

/-- `fetchAngularGitHubSections` (lines 536-678): process every listing
item, then attach the non-empty taxonomy sections in insertion order. -/
def fetchAngularGitHubSections (f : Fetcher) (source : DocSource) : DocSource :=
  let parsed := parseGithubRepoUrl source.baseUrl
  let owner := parsed.1
  let repo := parsed.2.1
  let path := parsed.2.2
  let branch := source.version
  let apiUrl := contentsApiUrl owner repo path branch
  match f.listDir apiUrl with
  | none => source
  | some items =>
    let start := (initialAngularSections owner repo branch path, source)
    let folded := items.foldl (angularItemStep f) start
    angularSectionKeys.foldl (fun src key =>
      let sec := getAngularSection folded.1 key
      if !sec.topics.isEmpty then { src with sections := src.sections ++ [sec] } else src)
      folded.2

/-- `fetchSections` (lines 430-440): dispatch on the source id. -/
def fetchSections (f : Fetcher) (source : DocSource) : DocSource :=
  if jsIncludes source.id "nestjs" then fetchNestJSGitHubSections f source
  else if jsIncludes source.id "angular" then fetchAngularGitHubSections f source
  else source

/-- `getDocumentationSources` (lines 37-53): unknown framework yields an
empty list; otherwise any source with no sections is populated by
discovery, and the (possibly updated) source list is both stored and
returned. -/
def getDocumentationSources (f : Fetcher) (s : RepoState) (framework : String) :
    List DocSource × RepoState :=
  let normalizedFramework := jsToLower framework
  if normalizedFramework = "nestjs" then
    let sources := s.nestjsSources.map (fun src =>
      if src.sections.isEmpty then fetchSections f src else src)
    (sources, { s with nestjsSources := sources })
  else if normalizedFramework = "angular" then
    let sources := s.angularSources.map (fun src =>
      if src.sections.isEmpty then fetchSections f src else src)
    (sources, { s with angularSources := sources })
  else ([], s)

/-- `getBestPractices` (lines 390-425): discover the framework's sources,
then accumulate the extracted passages of every topic whose title or
content contains the component (case-insensitive); the state reflects
exactly the discovery performed by `getDocumentationSources`. -/
def getBestPracticesSt (f : Fetcher) (s : RepoState) (framework component : String) :
    List String × RepoState :=
  let normalizedFramework := jsToLower framework
  let normalizedComponent := jsToLower component
  let pair := getDocumentationSources f s normalizedFramework
  let sources := pair.1
  let bestPractices :=
    if sources.isEmpty then []
    else
      sources.foldl (fun acc source =>
        source.sections.foldl (fun acc sec =>
          sec.topics.foldl (fun acc topic =>
            let topicWithContent :=
              if topic.content = "" then fetchTopicContent f topic else topic
            if jsIncludes (jsToLower topicWithContent.title) normalizedComponent ||
               jsIncludes (jsToLower topicWithContent.content) normalizedComponent then
              let content := extractBestPractices f topicWithContent
              if !content.isEmpty then acc ++ content else acc
            else acc) acc) acc) []
  (bestPractices, pair.2)

/-! ## Claims C5, C6, C10 -/

/-- The empty string is a substring of every string. -/
theorem jsIncludes_empty (s : String) : jsIncludes s "" = true := by
  show listContainsSub s.data [] = true
  cases s.data <;> simp [listContainsSub, listStartsWith]

/-- Appending one mapped element per step equals appending the mapped
list. -/
theorem foldl_append_upgrade {α β : Type} (g : α → β) :
    ∀ (l : List α) (acc : List β), l.foldl (fun a t => a ++ [g t]) acc = acc ++ l.map g
  | [], acc => by simp
  | t :: ts, acc => by
    simp [foldl_append_upgrade g ts (acc ++ [g t])]

/-- The nested section/topic accumulation equals the mapped flattened
topic list. -/
theorem foldl_sections_upgrade (g : DocTopic → DocTopic) :
    ∀ (sections : List DocSection) (acc : List DocTopic),
      sections.foldl (fun a sec => sec.topics.foldl (fun a2 t => a2 ++ [g t]) a) acc
        = acc ++ (sections.flatMap (fun sec => sec.topics)).map g
  | [], acc => by simp
  | sec :: rest, acc => by
    simp [foldl_append_upgrade g sec.topics acc,
          foldl_sections_upgrade g rest (acc ++ sec.topics.map g), List.flatMap_cons]

/-- Claim C5: searching a known source with the empty query returns every
topic of that source — each content-upgraded on demand — in section
traversal order then topic traversal order, and leaves the stored state
untouched. -/
theorem claim_C5 (f : Fetcher) (s : RepoState) (sourceId : String) (src : DocSource)
    (h : findSourceById s sourceId = some src) :
    (searchTopicsSt f s sourceId "").1
      = (src.sections.flatMap (fun sec => sec.topics)).map
          (fun t => if t.content = "" then fetchTopicContent f t else t) ∧
    (searchTopicsSt f s sourceId "").2 = s := by
  refine ⟨?_, rfl⟩
  show searchTopicsCompute f s sourceId "" = _
  unfold searchTopicsCompute
  have hq : jsToLower "" = "" := rfl
  rw [hq, h]
  simp only [jsIncludes_empty, Bool.true_or, if_pos]
  rw [foldl_sections_upgrade]
  simp

/-- Sample index data shared by the C5 and C6 witnesses. -/
def sampleTopicEmpty : DocTopic :=
  ⟨"t1", "Alpha", "https://github.com/o/r/blob/main/alpha.md", "", [], []⟩

/-- A stored topic that already carries content. -/
def sampleTopicFull : DocTopic :=
  ⟨"t2", "Beta", "https://github.com/o/r/blob/main/beta.md", "beta content", [], []⟩

/-- A sample populated source. -/
def sampleSource : DocSource :=
  ⟨"src1", "Sample", "https://github.com/o/r/tree/main/c", "main",
   [⟨"sec1", "Section", "https://github.com/o/r/tree/main/c/sec", [sampleTopicEmpty, sampleTopicFull]⟩]⟩

/-- A sample repository state holding the populated source. -/
def sampleState : RepoState := ⟨[sampleSource], []⟩

/-- A fetcher whose raw-content requests succeed with fixed text. -/
def sampleFetcher : Fetcher := ⟨fun _ => none, fun _ => some "hello world"⟩

/-- Witness for C5 on the sample index. -/
theorem claim_C5_witness :
    (searchTopicsSt sampleFetcher sampleState "src1" "").1
      = (sampleSource.sections.flatMap (fun sec => sec.topics)).map
          (fun t => if t.content = "" then fetchTopicContent sampleFetcher t else t) :=
  (claim_C5 sampleFetcher sampleState "src1" sampleSource (by decide)).1

/-- Claim C6: two successive `getTopicById` calls return equal (hence
content-equal) results — the lookup never writes the upgraded topic back,
so the second call repeats the same read-through upgrade — and in
particular a first result with non-empty content is never followed by a
regression to empty content. -/
theorem claim_C6 (f : Fetcher) (s : RepoState) (sourceId topicId : String) :
    (getTopicByIdSt f (getTopicByIdSt f s sourceId topicId).2 sourceId topicId).1
      = (getTopicByIdSt f s sourceId topicId).1 ∧
    (∀ t, (getTopicByIdSt f s sourceId topicId).1 = some t → t.content ≠ "" →
      ∃ t2, (getTopicByIdSt f (getTopicByIdSt f s sourceId topicId).2 sourceId topicId).1
              = some t2 ∧ t2.content = t.content) := by
  refine ⟨rfl, ?_⟩
  intro t ht _
  exact ⟨t, ht, rfl⟩

/-- Witness for C6 on the sample index: the stored full topic is returned
with its content both times. -/
theorem claim_C6_witness :
    ∃ t2, (getTopicByIdSt sampleFetcher
             (getTopicByIdSt sampleFetcher sampleState "src1" "t2").2 "src1" "t2").1
            = some t2 ∧ t2.content = sampleTopicFull.content :=
  (claim_C6 sampleFetcher sampleState "src1" "t2").2 sampleTopicFull (by decide) (by decide)

/-- Discovery-only growth: the post-state source keeps its stored section
list as a prefix (append-only sections, stored topics untouched). -/
def sourcePreserves (src src' : DocSource) : Prop :=
  ∃ t, src'.sections = src.sections ++ t

/-- One populate step of `getDocumentationSources` only ever appends
sections. -/
theorem populate_preserves (f : Fetcher) (src : DocSource) :
    sourcePreserves src (if src.sections.isEmpty then fetchSections f src else src) := by
  by_cases h : src.sections.isEmpty
  · have hnil : src.sections = [] := List.isEmpty_iff.mp h
    exact ⟨(fetchSections f src).sections, by simp [h, hnil]⟩
  · exact ⟨[], by simp [h]⟩

/-- Populating a whole source list preserves every source positionally. -/
theorem forall2_populate (f : Fetcher) (l : List DocSource) :
    List.Forall₂ sourcePreserves l
      (l.map (fun src => if src.sections.isEmpty then fetchSections f src else src)) := by
  induction l with
  | nil => exact List.Forall₂.nil
  | cons x xs ih => exact List.Forall₂.cons (populate_preserves f x) ih

/-- `sourcePreserves` is reflexive. -/
theorem forall2_refl_sourcePreserves (l : List DocSource) :
    List.Forall₂ sourcePreserves l l := by
  induction l with
  | nil => exact List.Forall₂.nil
  | cons x xs ih => exact List.Forall₂.cons ⟨[], by simp⟩ ih

/-- `getDocumentationSources` only populates empty-section sources and
never touches stored sections. -/
theorem getDocumentationSources_preserves (f : Fetcher) (s : RepoState) (fw : String) :
    List.Forall₂ sourcePreserves s.nestjsSources
      ((getDocumentationSources f s fw).2).nestjsSources ∧
    List.Forall₂ sourcePreserves s.angularSources
      ((getDocumentationSources f s fw).2).angularSources := by
  unfold getDocumentationSources
  by_cases h1 : jsToLower fw = "nestjs"
  · simp only [h1, if_pos]
    exact ⟨forall2_populate f _, forall2_refl_sourcePreserves _⟩
  · by_cases h2 : jsToLower fw = "angular"
    · simp only [h1, h2, if_neg, if_pos, reduceIte]
      exact ⟨forall2_refl_sourcePreserves _, forall2_populate f _⟩
    · simp only [h1, h2, reduceIte]
      exact ⟨forall2_refl_sourcePreserves _, forall2_refl_sourcePreserves _⟩

/-- Claim C10: the read operations never replace or mutate stored topics:
`getTopicById` and `searchTopics` leave the state exactly as it was
(upgraded topics exist only in the returned values), and `getBestPractices`
changes the state only through discovery, which appends sections to
sectionless sources — every stored section, with its stored (possibly
content-empty) topics, survives unchanged as a prefix. -/
theorem claim_C10 :
    (∀ (f : Fetcher) (s : RepoState) (sourceId topicId : String),
      (getTopicByIdSt f s sourceId topicId).2 = s) ∧
    (∀ (f : Fetcher) (s : RepoState) (sourceId query : String),
      (searchTopicsSt f s sourceId query).2 = s) ∧
    (∀ (f : Fetcher) (s : RepoState) (framework component : String),
      List.Forall₂ sourcePreserves s.nestjsSources
        ((getBestPracticesSt f s framework component).2).nestjsSources ∧
      List.Forall₂ sourcePreserves s.angularSources
        ((getBestPracticesSt f s framework component).2).angularSources) := by
  refine ⟨fun _ _ _ _ => rfl, fun _ _ _ _ => rfl, fun f s fw comp => ?_⟩
  exact getDocumentationSources_preserves f s (jsToLower fw)

/-! ## Claim C9 -/

/-- Generic fold invariant: if every step either keeps a section from the
accumulator or introduces one satisfying `P`, so does the whole fold. -/
theorem foldl_section_inv {σ α : Type} (proj : σ → List DocSection) (P : DocSection → Prop)
    (step : σ → α → σ)
    (hstep : ∀ acc item sec, sec ∈ proj (step acc item) → sec ∈ proj acc ∨ P sec) :
    ∀ (items : List α) (acc : σ) (sec : DocSection),
      sec ∈ proj (items.foldl step acc) → sec ∈ proj acc ∨ P sec := by
  intro items
  induction items with
  | nil => intro acc sec h; exact Or.inl h
  | cons i is ih =>
    intro acc sec h
    rcases ih (step acc i) sec h with h' | h'
    · exact hstep acc i sec h'
    · exact Or.inr h'

/-- Every section attached by the NestJS discovery walk that is not a
pre-existing one carries at least one topic (the attach guard). -/
theorem fetchNestJSGitHubSections_inv (f : Fetcher) (source : DocSource) :
    ∀ sec ∈ (fetchNestJSGitHubSections f source).sections,
      sec ∈ source.sections ∨ sec.topics ≠ [] := by
  intro sec
  unfold fetchNestJSGitHubSections
  dsimp only
  split
  · intro h; exact Or.inl h
  · intro h
    refine foldl_section_inv DocSource.sections (fun sec => sec.topics ≠ []) _ ?_ _ source sec h
    intro acc item sec' h'
    split at h'
    next =>
      split at h'
      next hne =>
        rcases List.mem_append.mp h' with h3 | h3
        · exact Or.inl h3
        · right
          have heq := List.mem_singleton.mp h3
          subst heq
          intro hnil
          rw [hnil] at hne
          simp at hne
      next => exact Or.inl h'
    next => exact Or.inl h'

/-- Every section attached by one Angular item step that is not a
pre-existing one carries at least one topic. -/
theorem angularItemStep_inv (f : Fetcher) :
    ∀ (acc : AngularSectionsMap × DocSource) (item : GhItem) (sec : DocSection),
      sec ∈ (angularItemStep f acc item).2.sections →
        sec ∈ acc.2.sections ∨ sec.topics ≠ [] := by
  intro acc item sec h
  unfold angularItemStep at h
  dsimp only at h
  split at h
  next =>
    split at h
    next => exact Or.inl h
    next =>
      split at h
      next hne =>
        rcases List.mem_append.mp h with h3 | h3
        · exact Or.inl h3
        · right
          have heq := List.mem_singleton.mp h3
          subst heq
          intro hnil
          rw [hnil] at hne
          simp at hne
      next => exact Or.inl h
  next =>
    split at h
    next => exact Or.inl h
    next => exact Or.inl h

/-- Every section attached by the final Angular taxonomy-attach loop that
is not a pre-existing one carries at least one topic (the attach guard). -/
theorem angularAttach_inv (m : AngularSectionsMap) :
    ∀ (acc : DocSource) (key : AngularSectionKey) (sec : DocSection),
      sec ∈ ((fun src key =>
        let s2 := getAngularSection m key
        if !s2.topics.isEmpty then { src with sections := src.sections ++ [s2] } else src)
          acc key).sections →
        sec ∈ acc.sections ∨ sec.topics ≠ [] := by
  intro acc key sec h
  dsimp only at h
  split at h
  next hne =>
    rcases List.mem_append.mp h with h3 | h3
    · exact Or.inl h3
    · right
      have heq := List.mem_singleton.mp h3
      subst heq
      intro hnil
      rw [hnil] at hne
      simp at hne
  next => exact Or.inl h

/-- Every section attached by the Angular discovery walk that is not a
pre-existing one carries at least one topic. -/
theorem fetchAngularGitHubSections_inv (f : Fetcher) (source : DocSource) :
    ∀ sec ∈ (fetchAngularGitHubSections f source).sections,
      sec ∈ source.sections ∨ sec.topics ≠ [] := by
  intro sec
  unfold fetchAngularGitHubSections
  dsimp only
  split
  · intro h; exact Or.inl h
  · intro h
    rename_i items _
    have h1 := foldl_section_inv DocSource.sections (fun sec => sec.topics ≠ []) _
      (angularAttach_inv _) angularSectionKeys _ sec h
    rcases h1 with h1 | h1
    · have h2 := foldl_section_inv (fun acc : AngularSectionsMap × DocSource => acc.2.sections)
        (fun sec => sec.topics ≠ []) (angularItemStep f) (angularItemStep_inv f) items _ sec h1
      exact h2
    · exact Or.inr h1

/-- `fetchSections` only attaches sections with at least one topic. -/
theorem fetchSections_inv (f : Fetcher) (source : DocSource) :
    ∀ sec ∈ (fetchSections f source).sections, sec ∈ source.sections ∨ sec.topics ≠ [] := by
  intro sec h
  unfold fetchSections at h
  split at h
  · exact fetchNestJSGitHubSections_inv f source sec h
  · split at h
    · exact fetchAngularGitHubSections_inv f source sec h
    · exact Or.inl h

/-- Populating one source keeps the no-empty-section property. -/
theorem populate_good (f : Fetcher) (src : DocSource)
    (h : ∀ sec ∈ src.sections, sec.topics ≠ []) :
    ∀ sec ∈ (if src.sections.isEmpty then fetchSections f src else src).sections,
      sec.topics ≠ [] := by
  by_cases he : src.sections.isEmpty
  · simp only [he, if_pos]
    intro sec hsec
    rcases fetchSections_inv f src sec hsec with hmem | hne
    · exact h sec hmem
    · exact hne
  · simp only [he, if_neg, Bool.false_eq_true, not_false_eq_true]
    exact h

/-- Every section of every source of the state has at least one topic. -/
def goodState (s : RepoState) : Prop :=
  (∀ src ∈ s.nestjsSources, ∀ sec ∈ src.sections, sec.topics ≠ []) ∧
  (∀ src ∈ s.angularSources, ∀ sec ∈ src.sections, sec.topics ≠ [])

/-- Populating a source list keeps the no-empty-section property. -/
theorem populate_list_good (f : Fetcher) (l : List DocSource)
    (h : ∀ src ∈ l, ∀ sec ∈ src.sections, sec.topics ≠ []) :
    ∀ src ∈ l.map (fun src => if src.sections.isEmpty then fetchSections f src else src),
      ∀ sec ∈ src.sections, sec.topics ≠ [] := by
  intro src' hsrc'
  rcases List.mem_map.mp hsrc' with ⟨src, hsrc, heq⟩
  subst heq
  exact populate_good f src (h src hsrc)

/-- Claim C9: for a supported framework and a reachable (invariant-
satisfying) state with the built-in sources present, `sources(F)` returns
a non-empty list, every section of every returned source has at least one
topic — no discovery path attaches an empty section — and the invariant is
preserved by the discovery the call performs. -/
theorem claim_C9 (f : Fetcher) (s : RepoState) (framework : String)
    (hgood : goodState s)
    (hn : s.nestjsSources ≠ []) (ha : s.angularSources ≠ [])
    (hfw : jsToLower framework = "nestjs" ∨ jsToLower framework = "angular") :
    (getDocumentationSources f s framework).1 ≠ [] ∧
    (∀ src ∈ (getDocumentationSources f s framework).1,
      ∀ sec ∈ src.sections, sec.topics ≠ []) ∧
    goodState (getDocumentationSources f s framework).2 := by
  rcases hfw with hfw | hfw
  · unfold getDocumentationSources
    simp only [hfw, if_pos]
    refine ⟨?_, populate_list_good f _ hgood.1, populate_list_good f _ hgood.1, hgood.2⟩
    simpa using hn
  · unfold getDocumentationSources
    have hne : jsToLower framework ≠ "nestjs" := by
      rw [hfw]; decide
    simp only [hfw, hne, reduceIte]
    refine ⟨?_, populate_list_good f _ hgood.2, hgood.1, populate_list_good f _ hgood.2⟩
    simpa using ha

/-- Witness for C9 at the initial state with a fetcher whose requests all
fail (discovery degrades gracefully, the source list stays non-empty). -/
theorem claim_C9_witness :
    (getDocumentationSources ⟨fun _ => none, fun _ => none⟩ initialState "nestjs").1 ≠ [] :=
  (claim_C9 ⟨fun _ => none, fun _ => none⟩ initialState "nestjs"
    ⟨by intro src hsrc sec hsec
        have := List.mem_singleton.mp hsrc
        subst this
        simp [initialState] at hsec,
      by intro src hsrc sec hsec
         have := List.mem_singleton.mp hsrc
         subst this
         simp [initialState] at hsec⟩
    (by decide) (by decide) (Or.inl (by decide))).1
